import Mathlib

/-!
# irishub: rand request queue export, service querier, client keybase

A shallow embedding of

* `app/v3/rand`: the pending-request queue, its iteration and the genesis
  export/import transform exercised by `genesis_test.go`;
* `app/v3/service/internal/keeper/querier.go`: the query router and its handlers;
* `client/keys/common.go`: the lazily initialised keybase.
-/

set_option autoImplicit false

/-! ## Decimal rendering of heights (`%d` / `strconv.ParseInt(_, 10, 64)`) -/

namespace Decimal

/-- The character of one decimal digit. -/
def digitChar : Nat → Char
  | 0 => '0' | 1 => '1' | 2 => '2' | 3 => '3' | 4 => '4'
  | 5 => '5' | 6 => '6' | 7 => '7' | 8 => '8' | _ => '9'

/-- The value of a decimal digit character, `none` for any other character. -/
def charDigit (c : Char) : Option Nat :=
  if c = '0' then some 0 else if c = '1' then some 1 else if c = '2' then some 2
  else if c = '3' then some 3 else if c = '4' then some 4 else if c = '5' then some 5
  else if c = '6' then some 6 else if c = '7' then some 7 else if c = '8' then some 8
  else if c = '9' then some 9 else none

/-- Decimal digits of `n`, most significant first; `fuel` bounds the number of digits. -/
def natDigits : Nat → Nat → List Char
  | 0, _ => []
  | fuel + 1, n =>
    if n < 10 then [digitChar n] else natDigits fuel (n / 10) ++ [digitChar (n % 10)]

/-- Decimal rendering of a signed integer, as `%d` prints it. -/
def formatInt : Int → String
  | Int.ofNat n => String.mk (natDigits (n + 1) n)
  | Int.negSucc n => String.mk ('-' :: natDigits (n + 2) (n + 1))

/-- Value of a run of decimal digits read left to right from accumulator `acc`;
`none` when a character is not a digit. -/
def parseDigits : List Char → Nat → Option Nat
  | [], acc => some acc
  | c :: cs, acc =>
    match charDigit c with
    | some d => parseDigits cs (10 * acc + d)
    | none => none

/-- The values of Go's `int64`. -/
def fitsInt64 (x : Int) : Bool :=
  decide (-9223372036854775808 ≤ x) && decide (x ≤ 9223372036854775807)

/-- Base-10 syntax of a signed integer: an optional sign followed by at least one
digit; the value read, of any size. -/
def readInt (s : String) : Option Int :=
  match s.data with
  | [] => none
  | '-' :: cs => if cs = [] then none else (parseDigits cs 0).map (fun n => -(n : Int))
  | '+' :: cs => if cs = [] then none else (parseDigits cs 0).map (fun n => (n : Int))
  | cs => (parseDigits cs 0).map (fun n => (n : Int))

/-- The call `strconv.ParseInt(s, 10, 64)` of `genesis_test.go:87`: the value of
a well-formed string that fits 64 bits; `none` stands for the error Go reports
on a syntax error or on a value out of range. -/
def parseInt (s : String) : Option Int :=
  match readInt s with
  | some v => if fitsInt64 v then some v else none
  | none => none

end Decimal

/-! ## `app/v3/rand`: pending-request queue and genesis export/import

Only `genesis_test.go` of this package is among the sources; the keeper and
`genesis.go` are modelled from the specification, with the shapes (`int64`
heights, `map[string][]Request`, visitor signature) read off the test. Heights
are integers; the export and the import check that each offset and height they
compute is an `int64` (`Decimal.fitsInt64`) and report an integrity fault
otherwise (§7). -/

namespace Rand

/-- Modelled from the spec: the record kept in the request queue (keeper code is
not among the sources). Spec §3 `ScheduledItem`: a due-height, an
insertion-sequence scoped to that due-height, and a caller-defined payload.
Heights are `int64` in `genesis_test.go`. -/
structure ScheduledItem (R : Type) where
  dueHeight : Int
  sequence : Nat
  payload : R
deriving DecidableEq, Repr

/-- Modelled from the spec: the part of `sdk.Context` the rand module reads
(the context type itself is not among the sources): the block height, and the
contents of the queue namespace of the store, listed in ascending
`(dueHeight, sequence)` key order, the order a prefix scan returns them (§4.1). -/
structure Context (R : Type) where
  BlockHeight : Int
  queue : List (ScheduledItem R)

/-- Modelled from the spec: `ctx.WithBlockHeight(h)` as used in
`genesis_test.go:58,78`; the store is shared, only the height changes. -/
def Context.WithBlockHeight {R : Type} (ctx : Context R) (h : Int) : Context R :=
  { ctx with BlockHeight := h }

/-- Modelled from the spec: the key order of the queue (§4.1; the key codec is not
among the sources): ascending due-height, then ascending sequence. -/
def keyBefore {R : Type} (a b : ScheduledItem R) : Bool :=
  decide (a.dueHeight < b.dueHeight) ||
    (decide (a.dueHeight = b.dueHeight) && decide (a.sequence < b.sequence))

/-- Modelled from the spec: §4.2 "the smallest unused sequence for that due-height". -/
def nextSequence {R : Type} (h : Int) (q : List (ScheduledItem R)) : Nat :=
  let used := (q.filter (fun it => decide (it.dueHeight = h))).map (fun it => it.sequence)
  ((List.range (used.length + 1)).find? (fun n => !used.contains n)).getD used.length

/-- Modelled from the spec: `DeferredQueue.Enqueue(dueHeight, payload)` (§4.2; the
keeper's enqueue is not among the sources): one write, at the smallest unused
sequence for that due-height; no check that the height lies in the future. -/
def Enqueue {R : Type} (h : Int) (p : R) (q : List (ScheduledItem R)) :
    List (ScheduledItem R) :=
  let it : ScheduledItem R := ⟨h, nextSequence h q, p⟩
  q.takeWhile (fun x => keyBefore x it) ++ it :: q.dropWhile (fun x => keyBefore x it)

/-- Modelled from the spec: `keeper.RequestRand(ctx, consumer, blockInterval, ...)`
as called in `genesis_test.go:66-67` (not among the sources). §4.2: callers
enqueue at `currentHeight + delay`. The request record is the caller's payload.
The sum belongs to the caller's business logic (§1, out of scope) and is not
range-checked; the test calls it far from the `int64` bounds. -/
def RequestRand {R : Type} (ctx : Context R) (request : R) (blockInterval : Nat) :
    Context R :=
  { ctx with queue := Enqueue (ctx.BlockHeight + blockInterval) request ctx.queue }

/-- Modelled from the spec: `keeper.IterateRandRequestQueue(ctx, op)` (not among
the sources). §4.2: a plain enumeration of the queue in ascending key order that
calls the visitor on each item and removes nothing. The visitor is a Go closure;
its captured variables are the threaded state `σ`. The sense of the visitor's
result is the one its caller `genesis_test.go:71-75` relies on: there a visitor
returning `false` on every item collects both heights, so `false` continues the
scan. No caller among the sources returns `true`; it is taken to end the scan,
and no statement below rests on that branch. -/
def IterateRandRequestQueue {R σ : Type} (op : σ → Int → R → σ × Bool) :
    List (ScheduledItem R) → σ → σ
  | [], s => s
  | it :: rest, s =>
    match op s it.dueHeight it.payload with
    | (s', true) => s'
    | (s', false) => IterateRandRequestQueue op rest s'

/-- A visitor instrumented with a log of its invocations: each call appends the
`(height, request)` it was passed. -/
def logged {R σ : Type} (op : σ → Int → R → σ × Bool) :
    σ × List (Int × R) → Int → R → (σ × List (Int × R)) × Bool :=
  fun s h r => (((op s.1 h r).1, s.2 ++ [(h, r)]), (op s.1 h r).2)

/-- Go's `m[k] = append(m[k], r)` on a map held as an association list with one
entry per key. -/
def appendAt {κ R : Type} [DecidableEq κ] (k : κ) (r : R) :
    List (κ × List R) → List (κ × List R)
  | [] => [(k, [r])]
  | (k', rs) :: m => if k' = k then (k', rs ++ [r]) :: m else (k', rs) :: appendAt k r m

/-- Go's `m[k]` with its presence flag, on the same association list. -/
def mapGet {κ R : Type} [DecidableEq κ] (k : κ) : List (κ × List R) → Option (List R)
  | [] => none
  | (k', rs) :: m => if k' = k then some rs else mapGet k m

/-- Modelled from the spec: the integrity faults of §7 that export and import
can meet (the fault type is not among the sources): an overdue item at export
time, and offset arithmetic that leaves `int64`. -/
inductive IntegrityFault where
  /-- An item with due-height below the export height, under the refusing policy (§4.4 (a)). -/
  | StaleScheduledItem
  /-- A height or offset computed outside `int64` (§7). -/
  | OffsetOverflow
deriving DecidableEq, Repr

/-- Modelled from the spec: the policy for overdue items, which §4.4 leaves to
the implementation with two admissible choices: (a) refuse to export while such
items exist, (b) drop them and report it. -/
inductive StalePolicy where
  /-- Policy (a): the export fails with `StaleScheduledItem`. -/
  | refuse
  /-- Policy (b): overdue items are left out and counted in the result. -/
  | drop
deriving DecidableEq, Repr

/-- Modelled from the spec: `GenesisState` of the rand module (not among the
sources); `genesis_test.go:82-87` reads its field `PendingRandRequests`, a map
from decimal strings to request lists (§6 "string-encoded relative offset").
`Dropped` is the return code §4.4 (b) asks for: the number of overdue items
left out of the export. -/
structure GenesisState (R : Type) where
  PendingRandRequests : List (String × List R)
  Dropped : Nat

/-- Modelled from the spec: the visitor `ExportGenesis` passes to the queue
iteration (`genesis.go` is not among the sources). §4.4: an item due at
`h ≥ currentHeight` is filed under the string of `offset = h - currentHeight + 1`;
an overdue item is handled by the policy; an offset outside `int64` is a fault
(§7); for an item that is not overdue the difference `h - currentHeight` lies
between 0 and the offset, so it is an `int64` whenever the offset is. Once a
fault is recorded nothing more is filed. The visitor always returns `false`, as
the test's visitor does. -/
def exportVisit {R : Type} (policy : StalePolicy) (currentHeight : Int) :
    Except IntegrityFault (GenesisState R) → Int → R →
      Except IntegrityFault (GenesisState R) × Bool
  | Except.error fault, _, _ => (Except.error fault, false)
  | Except.ok g, height, request =>
    if height < currentHeight then
      match policy with
      | StalePolicy.refuse => (Except.error IntegrityFault.StaleScheduledItem, false)
      | StalePolicy.drop => (Except.ok ⟨g.PendingRandRequests, g.Dropped + 1⟩, false)
    else if Decimal.fitsInt64 (height - currentHeight + 1) then
      (Except.ok
        ⟨appendAt (Decimal.formatInt (height - currentHeight + 1)) request
          g.PendingRandRequests, g.Dropped⟩, false)
    else (Except.error IntegrityFault.OffsetOverflow, false)

/-- Modelled from the spec: `ExportGenesis(ctx, keeper)` (`genesis.go` is not
among the sources). §2/§4.4: walks the queue and rewrites each absolute due-height
as `due_height - current_height + 1`; §6: the result maps the string-encoded
offset to the ordered sequence of payloads; §7: an integrity fault blocks the
export instead of yielding a snapshot. The Go function has one result, so a fault
is a result of its own here. The keeper argument of the Go function only names
the store held in `ctx`. -/
def ExportGenesis {R : Type} (policy : StalePolicy) (ctx : Context R) :
    Except IntegrityFault (GenesisState R) :=
  IterateRandRequestQueue (exportVisit policy ctx.BlockHeight) ctx.queue
    (Except.ok { PendingRandRequests := [], Dropped := 0 })

/-- Modelled from the spec: `SnapshotTransform.Import(relativeOffset, payload,
resumeHeight)` (§4.4; `InitGenesis` is not among the sources): computes
`dueHeight = resumeHeight + relativeOffset - 1` and enqueues. §7: the import
fails with `OffsetOverflow` when the sum or the due-height leaves `int64`. -/
def Import {R : Type} (relativeOffset : Int) (payload : R) (ctx : Context R) :
    Except IntegrityFault (Context R) :=
  if Decimal.fitsInt64 (ctx.BlockHeight + relativeOffset) &&
      Decimal.fitsInt64 (ctx.BlockHeight + relativeOffset - 1) then
    Except.ok
      { ctx with queue := Enqueue (ctx.BlockHeight + relativeOffset - 1) payload ctx.queue }
  else Except.error IntegrityFault.OffsetOverflow

/-- Modelled from the spec: `DeferredQueue.Remove(dueHeight, sequence)` (§4.2; the
keeper's dequeue is not among the sources): deletes the item stored under that
key; removing an absent key changes nothing. -/
def Remove {R : Type} (dueHeight : Int) (sequence : Nat) (ctx : Context R) : Context R :=
  ⟨ctx.BlockHeight, ctx.queue.filter
    (fun it => !(decide (it.dueHeight = dueHeight) && decide (it.sequence = sequence)))⟩

/-- Modelled from the spec: the call `keeper.IterateRandRequestQueue(ctx, op)` as
an operation on the context (the keeper is not among the sources): the visitor
runs over the queue read from the store in `ctx`, and the call yields the store
as it leaves it together with the visitor's state. §4.2: items are not
implicitly removed, removal is explicit and separate, so the store is handed
back as received. -/
def iterateQueue {R σ : Type} (ctx : Context R) (op : σ → Int → R → σ × Bool) (s : σ) :
    Context R × σ :=
  (ctx, IterateRandRequestQueue op ctx.queue s)

/-- Whether the visitor returns `false` on each of the items when it is shown
them in turn starting from state `s`, each answer taken in the state the visitor
has reached. -/
def answersFalse {R σ : Type} (op : σ → Int → R → σ × Bool) :
    List (ScheduledItem R) → σ → Bool
  | [], _ => true
  | it :: rest, s =>
    !(op s it.dueHeight it.payload).2 && answersFalse op rest (op s it.dueHeight it.payload).1

/-- The items of the queue that are not overdue at height `c`, in queue order. -/
def pendingFrom {R : Type} (c : Int) (q : List (ScheduledItem R)) : List (ScheduledItem R) :=
  q.filter (fun it => decide (c ≤ it.dueHeight))

/-- The items of the queue that are overdue at height `c`, in queue order. -/
def overdueAt {R : Type} (c : Int) (q : List (ScheduledItem R)) : List (ScheduledItem R) :=
  q.filter (fun it => decide (it.dueHeight < c))

/-- The requests stored in the queue at one due-height, in queue order. -/
def requestsAt {R : Type} (h : Int) (q : List (ScheduledItem R)) : List R :=
  (q.filter (fun it => decide (it.dueHeight = h))).map (fun it => it.payload)

/-- The scenario of `genesis_test.go`: two requests made at height 10000 with
block intervals 100 and 200. -/
def testContext : Context String :=
  RequestRand (RequestRand ⟨10000, []⟩ "consumer1" 100) "consumer2" 200

/-- The visitor of `genesis_test.go:71-74`: `storedRequests[h] = append(storedRequests[h], r);
return false`. -/
def storeRequest (m : List (Int × List String)) (h : Int) (r : String) :
    List (Int × List String) × Bool :=
  (appendAt h r m, false)

/-- A visitor whose answer depends on its state: it counts the items it is shown
and returns `false` on the first two and `true` from the third on. -/
def countToThree (n : Nat) (_ : Int) (_ : String) : Nat × Bool :=
  (n + 1, decide (2 ≤ n))

/-- A queue holding an overdue item and a pending item at height 100. -/
def mixedContext : Context String :=
  { BlockHeight := 100, queue := [⟨50, 0, "late"⟩, ⟨150, 0, "A"⟩] }

end Rand

/-! ## `app/v3/service/internal/keeper/querier.go` -/

namespace Service

/-- A Go byte slice. -/
abbrev Bytes := List UInt8

/-- The `sdk.Error` values the querier builds, one constructor per constructor
function called in `querier.go`, carrying that call's arguments. -/
inductive SdkError where
  /-- The value of `sdk.ParseParamsErr(err)`. -/
  | sdkParseParamsErr (err : String)
  /-- The value of `sdk.MarshalResultErr(err)`. -/
  | sdkMarshalResultErr (err : String)
  /-- The value of `sdk.ErrUnknownRequest(msg)`. -/
  | sdkErrUnknownRequest (msg : String)
  /-- The value of `types.ErrUnknownServiceDefinition(codespace, serviceName)`. -/
  | ErrUnknownServiceDefinition (codespace : String) (serviceName : String)
  /-- The value of `types.ErrUnknownServiceBinding(codespace)`. -/
  | ErrUnknownServiceBinding (codespace : String)
  /-- The value of `types.ErrInvalidRequestID(codespace, requestID)`. -/
  | ErrInvalidRequestID (codespace : String) (requestID : String)
  /-- The value of `types.ErrUnknownRequest(codespace, requestID)`. -/
  | ErrUnknownRequest (codespace : String) (requestID : Bytes)
  /-- The value of `types.ErrUnknownResponse(codespace, requestID)`. -/
  | ErrUnknownResponse (codespace : String) (requestID : Bytes)
  /-- The value of `types.ErrUnknownRequestContext(codespace, requestContextID)`. -/
  | ErrUnknownRequestContext (codespace : String) (requestContextID : Bytes)
  /-- The value of `types.ErrNoEarnedFees(codespace, address)`. -/
  | ErrNoEarnedFees (codespace : String) (address : Bytes)
deriving DecidableEq, Repr

/-- The pair `([]byte, sdk.Error)` a handler returns; `none` is Go's `nil`. -/
abbrev QueryResult := Option Bytes × Option SdkError

/-- The run-time panics the querier can raise. -/
inductive GoPanic where
  /-- Indexing `path[0]` on an empty path. -/
  | indexOutOfRange
  /-- Slicing `key[1:]` on an empty key. -/
  | sliceBoundsOutOfRange
  /-- `MustUnmarshalBinaryLengthPrefixed` on bytes that do not decode. -/
  | mustUnmarshal
deriving DecidableEq, Repr

/-- The part of `abci.RequestQuery` the handlers read. -/
structure RequestQuery where
  Data : Bytes

/-- Fields of `types.QueryDefinitionParams` read by `queryDefinition`. -/
structure QueryDefinitionParams where
  ServiceName : String

/-- Fields of `types.QueryBindingParams` read by `queryBinding`. -/
structure QueryBindingParams where
  ServiceName : String
  Provider : Bytes

/-- Fields of `types.QueryBindingsParams` read by `queryBindings`. -/
structure QueryBindingsParams where
  ServiceName : String

/-- Fields of `types.QueryWithdrawAddressParams` read by `queryWithdrawAddress`. -/
structure QueryWithdrawAddressParams where
  Provider : Bytes

/-- Fields of `types.QueryRequestParams` read by `queryRequest`. -/
structure QueryRequestParams where
  RequestID : String

/-- Fields of `types.QueryRequestsParams` read by `queryRequests`. -/
structure QueryRequestsParams where
  ServiceName : String
  Provider : Bytes

/-- Fields of `types.QueryResponseParams` read by `queryResponse`. -/
structure QueryResponseParams where
  RequestID : String

/-- Fields of `types.QueryRequestContextParams` read by `queryRequestContext`. -/
structure QueryRequestContextParams where
  RequestContextID : Bytes

/-- Fields of `types.QueryRequestsByReqCtxParams` read by `queryRequestsByReqCtx`. -/
structure QueryRequestsByReqCtxParams where
  RequestContextID : Bytes
  BatchCounter : Nat

/-- Fields of `types.QueryResponsesParams` read by `queryResponses`. -/
structure QueryResponsesParams where
  RequestContextID : Bytes
  BatchCounter : Nat

/-- Fields of `types.QueryFeesParams` read by `queryFees`. -/
structure QueryFeesParams where
  Address : Bytes

/-- The record and context types of the module; their declarations are not among
the sources, and the querier treats them as opaque, so they are parameters. -/
structure Types where
  Context : Type
  ServiceDefinition : Type
  ServiceBinding : Type
  Request : Type
  Response : Type
  RequestContext : Type
  EarnedFees : Type

/-- The declarations of package `types` the querier refers to whose values are
not among the sources: the eleven query names, the default codespace and
`ConvertRequestID`. -/
structure TypesPkg where
  QueryDefinition : String
  QueryBinding : String
  QueryBindings : String
  QueryWithdrawAddress : String
  QueryRequest : String
  QueryRequests : String
  QueryResponse : String
  QueryRequestContext : String
  QueryRequestsByReqCtx : String
  QueryResponses : String
  QueryFees : String
  DefaultCodespace : String
  ConvertRequestID : String → Except String Bytes

/-- The eleven query names in the order of the `switch` of `NewQuerier`. -/
def TypesPkg.queryNames (t : TypesPkg) : List String :=
  [t.QueryDefinition, t.QueryBinding, t.QueryBindings, t.QueryWithdrawAddress,
   t.QueryRequest, t.QueryRequests, t.QueryResponse, t.QueryRequestContext,
   t.QueryRequestsByReqCtx, t.QueryResponses, t.QueryFees]

/-- The codec `k.cdc` as the querier uses it: `UnmarshalJSON` into each params
type (an error is its message), `MustUnmarshalBinaryLengthPrefixed` into each
record type (`none` is the panic), and `codec.MarshalJSONIndent` of each result
type. The codec is an external library and is a parameter. -/
structure Codec (T : Types) where
  unmarshalDefinitionParams : Bytes → Except String QueryDefinitionParams
  unmarshalBindingParams : Bytes → Except String QueryBindingParams
  unmarshalBindingsParams : Bytes → Except String QueryBindingsParams
  unmarshalWithdrawAddressParams : Bytes → Except String QueryWithdrawAddressParams
  unmarshalRequestParams : Bytes → Except String QueryRequestParams
  unmarshalRequestsParams : Bytes → Except String QueryRequestsParams
  unmarshalResponseParams : Bytes → Except String QueryResponseParams
  unmarshalRequestContextParams : Bytes → Except String QueryRequestContextParams
  unmarshalRequestsByReqCtxParams : Bytes → Except String QueryRequestsByReqCtxParams
  unmarshalResponsesParams : Bytes → Except String QueryResponsesParams
  unmarshalFeesParams : Bytes → Except String QueryFeesParams
  mustUnmarshalBinding : Bytes → Option T.ServiceBinding
  mustUnmarshalRequestID : Bytes → Option Bytes
  mustUnmarshalResponse : Bytes → Option T.Response
  marshalDefinition : T.ServiceDefinition → Except String Bytes
  marshalBinding : T.ServiceBinding → Except String Bytes
  marshalBindings : List T.ServiceBinding → Except String Bytes
  marshalAddress : Bytes → Except String Bytes
  marshalRequest : T.Request → Except String Bytes
  marshalRequests : List T.Request → Except String Bytes
  marshalResponse : T.Response → Except String Bytes
  marshalRequestContext : T.RequestContext → Except String Bytes
  marshalResponses : List T.Response → Except String Bytes
  marshalFees : T.EarnedFees → Except String Bytes

/-- The keeper as the querier uses it. Its methods are not among the sources and
are parameters; a getter returns its value together with the `found` flag, and an
iterator is given by the `(key, value)` entries it yields, in the order it
yields them. -/
structure Keeper (T : Types) where
  cdc : Codec T
  GetServiceDefinition : T.Context → String → T.ServiceDefinition × Bool
  GetServiceBinding : T.Context → String → Bytes → T.ServiceBinding × Bool
  ServiceBindingsIterator : T.Context → String → List (Bytes × Bytes)
  GetWithdrawAddress : T.Context → Bytes → Bytes
  GetRequest : T.Context → Bytes → T.Request × Bool
  ActiveRequestsIterator : T.Context → String → Bytes → List (Bytes × Bytes)
  GetResponse : T.Context → Bytes → T.Response × Bool
  GetRequestContext : T.Context → Bytes → T.RequestContext × Bool
  RequestsIteratorByReqCtx : T.Context → Bytes → Nat → List (Bytes × Bytes)
  ResponsesIteratorByReqCtx : T.Context → Bytes → Nat → List (Bytes × Bytes)
  GetEarnedFees : T.Context → Bytes → T.EarnedFees × Bool

/-- The loop `for ; iterator.Valid(); iterator.Next() { body }`: the body runs
on each entry in turn with the variables it updates threaded through; a panic in
the body ends the loop. -/
def forEachEntry {α : Type} (body : α → Bytes → Bytes → Except GoPanic α) :
    List (Bytes × Bytes) → α → Except GoPanic α
  | [], acc => Except.ok acc
  | (key, value) :: rest, acc =>
    match body acc key value with
    | Except.ok acc' => forEachEntry body rest acc'
    | Except.error p => Except.error p

/-- The common tail of the handlers: `bz, err := codec.MarshalJSONIndent(...)`;
`if err != nil { return nil, sdk.MarshalResultErr(err) }`; `return bz, nil`. -/
def returnMarshalled : Except String Bytes → QueryResult
  | Except.error err => (none, some (SdkError.sdkMarshalResultErr err))
  | Except.ok bz => (some bz, none)

variable {T : Types}

/-- `queryDefinition` of `querier.go:44-61`. -/
def queryDefinition (t : TypesPkg) (ctx : T.Context) (req : RequestQuery) (k : Keeper T) :
    Except GoPanic QueryResult :=
  match k.cdc.unmarshalDefinitionParams req.Data with
  | Except.error err => Except.ok (none, some (SdkError.sdkParseParamsErr err))
  | Except.ok params =>
    match k.GetServiceDefinition ctx params.ServiceName with
    | (_, false) =>
      Except.ok (none,
        some (SdkError.ErrUnknownServiceDefinition t.DefaultCodespace params.ServiceName))
    | (svcDef, true) => Except.ok (returnMarshalled (k.cdc.marshalDefinition svcDef))

/-- `queryBinding` of `querier.go:63-81`. -/
def queryBinding (t : TypesPkg) (ctx : T.Context) (req : RequestQuery) (k : Keeper T) :
    Except GoPanic QueryResult :=
  match k.cdc.unmarshalBindingParams req.Data with
  | Except.error err => Except.ok (none, some (SdkError.sdkParseParamsErr err))
  | Except.ok params =>
    match k.GetServiceBinding ctx params.ServiceName params.Provider with
    | (_, false) =>
      Except.ok (none, some (SdkError.ErrUnknownServiceBinding t.DefaultCodespace))
    | (svcBinding, true) => Except.ok (returnMarshalled (k.cdc.marshalBinding svcBinding))

/-- `queryBindings` of `querier.go:83-108`. -/
def queryBindings (ctx : T.Context) (req : RequestQuery) (k : Keeper T) :
    Except GoPanic QueryResult :=
  match k.cdc.unmarshalBindingsParams req.Data with
  | Except.error err => Except.ok (none, some (SdkError.sdkParseParamsErr err))
  | Except.ok params =>
    match forEachEntry
        (fun (bindings : List T.ServiceBinding) _ value =>
          match k.cdc.mustUnmarshalBinding value with
          | none => Except.error GoPanic.mustUnmarshal
          | some binding => Except.ok (bindings ++ [binding]))
        (k.ServiceBindingsIterator ctx params.ServiceName) [] with
    | Except.error p => Except.error p
    | Except.ok bindings => Except.ok (returnMarshalled (k.cdc.marshalBindings bindings))

/-- `queryWithdrawAddress` of `querier.go:110-125`. -/
def queryWithdrawAddress (ctx : T.Context) (req : RequestQuery) (k : Keeper T) :
    Except GoPanic QueryResult :=
  match k.cdc.unmarshalWithdrawAddressParams req.Data with
  | Except.error err => Except.ok (none, some (SdkError.sdkParseParamsErr err))
  | Except.ok params =>
    Except.ok (returnMarshalled
      (k.cdc.marshalAddress (k.GetWithdrawAddress ctx params.Provider)))

/-- `queryRequest` of `querier.go:127-150`. -/
def queryRequest (t : TypesPkg) (ctx : T.Context) (req : RequestQuery) (k : Keeper T) :
    Except GoPanic QueryResult :=
  match k.cdc.unmarshalRequestParams req.Data with
  | Except.error err => Except.ok (none, some (SdkError.sdkParseParamsErr err))
  | Except.ok params =>
    match t.ConvertRequestID params.RequestID with
    | Except.error _ =>
      Except.ok (none, some (SdkError.ErrInvalidRequestID t.DefaultCodespace params.RequestID))
    | Except.ok requestID =>
      match k.GetRequest ctx requestID with
      | (_, false) =>
        Except.ok (none, some (SdkError.ErrUnknownRequest t.DefaultCodespace requestID))
      | (request, true) => Except.ok (returnMarshalled (k.cdc.marshalRequest request))

/-- `queryRequests` of `querier.go:152-178`. -/
def queryRequests (ctx : T.Context) (req : RequestQuery) (k : Keeper T) :
    Except GoPanic QueryResult :=
  match k.cdc.unmarshalRequestsParams req.Data with
  | Except.error err => Except.ok (none, some (SdkError.sdkParseParamsErr err))
  | Except.ok params =>
    match forEachEntry
        (fun (requests : List T.Request) _ value =>
          match k.cdc.mustUnmarshalRequestID value with
          | none => Except.error GoPanic.mustUnmarshal
          | some requestID => Except.ok (requests ++ [(k.GetRequest ctx requestID).1]))
        (k.ActiveRequestsIterator ctx params.ServiceName params.Provider) [] with
    | Except.error p => Except.error p
    | Except.ok requests => Except.ok (returnMarshalled (k.cdc.marshalRequests requests))

/-- `queryResponse` of `querier.go:180-203`. -/
def queryResponse (t : TypesPkg) (ctx : T.Context) (req : RequestQuery) (k : Keeper T) :
    Except GoPanic QueryResult :=
  match k.cdc.unmarshalResponseParams req.Data with
  | Except.error err => Except.ok (none, some (SdkError.sdkParseParamsErr err))
  | Except.ok params =>
    match t.ConvertRequestID params.RequestID with
    | Except.error _ =>
      Except.ok (none, some (SdkError.ErrInvalidRequestID t.DefaultCodespace params.RequestID))
    | Except.ok requestID =>
      match k.GetResponse ctx requestID with
      | (_, false) =>
        Except.ok (none, some (SdkError.ErrUnknownResponse t.DefaultCodespace requestID))
      | (response, true) => Except.ok (returnMarshalled (k.cdc.marshalResponse response))

/-- `queryRequestContext` of `querier.go:205-223`. -/
def queryRequestContext (t : TypesPkg) (ctx : T.Context) (req : RequestQuery)
    (k : Keeper T) : Except GoPanic QueryResult :=
  match k.cdc.unmarshalRequestContextParams req.Data with
  | Except.error err => Except.ok (none, some (SdkError.sdkParseParamsErr err))
  | Except.ok params =>
    match k.GetRequestContext ctx params.RequestContextID with
    | (_, false) =>
      Except.ok (none,
        some (SdkError.ErrUnknownRequestContext t.DefaultCodespace params.RequestContextID))
    | (requestContext, true) =>
      Except.ok (returnMarshalled (k.cdc.marshalRequestContext requestContext))

/-- `queryRequestsByReqCtx` of `querier.go:225-250`. The request id is
`iterator.Key()[1:]`, which panics on an empty key. -/
def queryRequestsByReqCtx (ctx : T.Context) (req : RequestQuery) (k : Keeper T) :
    Except GoPanic QueryResult :=
  match k.cdc.unmarshalRequestsByReqCtxParams req.Data with
  | Except.error err => Except.ok (none, some (SdkError.sdkParseParamsErr err))
  | Except.ok params =>
    match forEachEntry
        (fun (requests : List T.Request) key _ =>
          match key with
          | [] => Except.error GoPanic.sliceBoundsOutOfRange
          | _ :: requestID => Except.ok (requests ++ [(k.GetRequest ctx requestID).1]))
        (k.RequestsIteratorByReqCtx ctx params.RequestContextID params.BatchCounter) [] with
    | Except.error p => Except.error p
    | Except.ok requests => Except.ok (returnMarshalled (k.cdc.marshalRequests requests))

/-- `queryResponses` of `querier.go:252-277`. -/
def queryResponses (ctx : T.Context) (req : RequestQuery) (k : Keeper T) :
    Except GoPanic QueryResult :=
  match k.cdc.unmarshalResponsesParams req.Data with
  | Except.error err => Except.ok (none, some (SdkError.sdkParseParamsErr err))
  | Except.ok params =>
    match forEachEntry
        (fun (responses : List T.Response) _ value =>
          match k.cdc.mustUnmarshalResponse value with
          | none => Except.error GoPanic.mustUnmarshal
          | some response => Except.ok (responses ++ [response]))
        (k.ResponsesIteratorByReqCtx ctx params.RequestContextID params.BatchCounter) [] with
    | Except.error p => Except.error p
    | Except.ok responses => Except.ok (returnMarshalled (k.cdc.marshalResponses responses))

/-- `queryFees` of `querier.go:279-297`. -/
def queryFees (t : TypesPkg) (ctx : T.Context) (req : RequestQuery) (k : Keeper T) :
    Except GoPanic QueryResult :=
  match k.cdc.unmarshalFeesParams req.Data with
  | Except.error err => Except.ok (none, some (SdkError.sdkParseParamsErr err))
  | Except.ok params =>
    match k.GetEarnedFees ctx params.Address with
    | (_, false) =>
      Except.ok (none, some (SdkError.ErrNoEarnedFees t.DefaultCodespace params.Address))
    | (fees, true) => Except.ok (returnMarshalled (k.cdc.marshalFees fees))

/-- `NewQuerier` of `querier.go:13-42`: a `switch` on `path[0]`, whose cases are
tried in source order; indexing an empty path panics. -/
def NewQuerier (t : TypesPkg) (k : Keeper T) (ctx : T.Context) (path : List String)
    (req : RequestQuery) : Except GoPanic QueryResult :=
  match path with
  | [] => Except.error GoPanic.indexOutOfRange
  | p :: _ =>
    if p = t.QueryDefinition then queryDefinition t ctx req k
    else if p = t.QueryBinding then queryBinding t ctx req k
    else if p = t.QueryBindings then queryBindings ctx req k
    else if p = t.QueryWithdrawAddress then queryWithdrawAddress ctx req k
    else if p = t.QueryRequest then queryRequest t ctx req k
    else if p = t.QueryRequests then queryRequests ctx req k
    else if p = t.QueryResponse then queryResponse t ctx req k
    else if p = t.QueryRequestContext then queryRequestContext t ctx req k
    else if p = t.QueryRequestsByReqCtx then queryRequestsByReqCtx ctx req k
    else if p = t.QueryResponses then queryResponses ctx req k
    else if p = t.QueryFees then queryFees t ctx req k
    else Except.ok (none, some (SdkError.sdkErrUnknownRequest "unknown service query endpoint"))

/-- The slice `key[1:]` of `querier.go:238`: the key without its first byte,
`none` for the empty key, on which slicing panics. -/
def keyRequestID (key : Bytes) : Option Bytes :=
  match key with
  | [] => none
  | _ :: requestID => some requestID

end Service

namespace Service

/-- Example instance of the record types: every record is kept in encoded form,
and the context is the primary request table, request id to request. -/
@[reducible] def demoTypes : Types where
  Context := List (Bytes × Bytes)
  ServiceDefinition := Bytes
  ServiceBinding := Bytes
  Request := Bytes
  Response := Bytes
  RequestContext := Bytes
  EarnedFees := Bytes

/-- Example values of the package constants: the query names, the codespace, and
a request-id conversion that rejects strings of odd length. -/
def demoPkg : TypesPkg where
  QueryDefinition := "definition"
  QueryBinding := "binding"
  QueryBindings := "bindings"
  QueryWithdrawAddress := "withdraw_address"
  QueryRequest := "request"
  QueryRequests := "requests"
  QueryResponse := "response"
  QueryRequestContext := "context"
  QueryRequestsByReqCtx := "requests_by_ctx"
  QueryResponses := "responses"
  QueryFees := "fees"
  DefaultCodespace := "service"
  ConvertRequestID := fun s =>
    if s.data.length % 2 = 1 then Except.error "odd length hex string"
    else Except.ok (s.data.map (fun c => UInt8.ofNat c.toNat))

/-- Text of a byte string, byte by byte. -/
def demoText (data : Bytes) : String := String.mk (data.map (fun b => Char.ofNat b.toNat))

/-- Example params decoder: empty input is an error. -/
def demoParams {α : Type} (mk : Bytes → α) : Bytes → Except String α
  | [] => Except.error "unexpected end of JSON input"
  | data => Except.ok (mk data)

/-- Look-up in the example request table; a miss gives the zero-valued record. -/
def demoGet (table : List (Bytes × Bytes)) (id : Bytes) : Bytes × Bool :=
  match table.lookup id with
  | some r => (r, true)
  | none => ([], false)

/-- Example codec: a record decodes from any non-empty value, a list is encoded
as the concatenation of its records, and the record `[0]` does not marshal. -/
def demoCodec : Codec demoTypes where
  unmarshalDefinitionParams := demoParams (fun d => ⟨demoText d⟩)
  unmarshalBindingParams := demoParams (fun d => ⟨demoText d, d⟩)
  unmarshalBindingsParams := demoParams (fun d => ⟨demoText d⟩)
  unmarshalWithdrawAddressParams := demoParams (fun d => ⟨d⟩)
  unmarshalRequestParams := demoParams (fun d => ⟨demoText d⟩)
  unmarshalRequestsParams := demoParams (fun d => ⟨demoText d, d⟩)
  unmarshalResponseParams := demoParams (fun d => ⟨demoText d⟩)
  unmarshalRequestContextParams := demoParams (fun d => ⟨d⟩)
  unmarshalRequestsByReqCtxParams := demoParams (fun d => ⟨d.drop 1, (d.headD 0).toNat⟩)
  unmarshalResponsesParams := demoParams (fun d => ⟨d.drop 1, (d.headD 0).toNat⟩)
  unmarshalFeesParams := demoParams (fun d => ⟨d⟩)
  mustUnmarshalBinding := fun v => if v = [] then none else some v
  mustUnmarshalRequestID := fun v => if v = [] then none else some v
  mustUnmarshalResponse := fun v => if v = [] then none else some v
  marshalDefinition := fun r => Except.ok r
  marshalBinding := fun r => Except.ok r
  marshalBindings := fun rs => Except.ok rs.flatten
  marshalAddress := fun r => Except.ok r
  marshalRequest := fun r => if r = [0] then Except.error "unsupported value" else Except.ok r
  marshalRequests := fun rs => Except.ok rs.flatten
  marshalResponse := fun r => Except.ok r
  marshalRequestContext := fun r => Except.ok r
  marshalResponses := fun rs => Except.ok rs.flatten
  marshalFees := fun r => Except.ok r

/-- Example keeper over the request table. The request index of a context id
lists two requests, keyed by the byte 6 followed by the request id; the response
index lists two responses; the active-request index lists two request ids. -/
def demoKeeper : Keeper demoTypes where
  cdc := demoCodec
  GetServiceDefinition := fun _ _ => ([], false)
  GetServiceBinding := fun _ _ _ => ([], false)
  ServiceBindingsIterator := fun _ _ => []
  GetWithdrawAddress := fun _ provider => provider
  GetRequest := fun ctx id => demoGet ctx id
  ActiveRequestsIterator := fun _ _ _ => [([2, 1], [5, 1]), ([2, 2], [5, 2])]
  GetResponse := fun _ _ => ([], false)
  GetRequestContext := fun _ _ => ([], false)
  RequestsIteratorByReqCtx := fun _ id _ => [(6 :: id ++ [1], []), (6 :: id ++ [2], [])]
  ResponsesIteratorByReqCtx := fun _ id _ => [(8 :: id ++ [1], [101]), (8 :: id ++ [2], [102])]
  GetEarnedFees := fun _ _ => ([], false)

/-- Example request table: request `[5, 1]` is stored, request `[5, 2]` is not
(its index entries are stale); two more requests are stored under the ids the
text "52" and "53" convert to, the second with a record that does not marshal. -/
def demoCtx : List (Bytes × Bytes) :=
  [([5, 1], [42]), ([53, 50], [43]), ([53, 51], [0])]

end Service

/-! ## `client/keys/common.go`: the keybase singleton -/

namespace Keys

/-- `KeyDBName` of `common.go:18`. -/
def KeyDBName : String := "keys"

/-- The external calls of `GetKeyBaseFromDir` and `getKeyBaseFromDirWithOpts`,
none of them among the sources: `filepath.Join`, the two `dbm` constructors (an
open either yields a database or an error), `GetKeyBaseFromDB` and
`client.GetKeyBase`. The keybase constructors yield a keybase value, never `nil`. -/
structure Env (DB KB Opts Err : Type) where
  Join : String → String → String
  NewGoLevelDB : String → String → Except Err DB
  NewGoLevelDBWithOpts : String → String → Option Opts → Except Err DB
  GetKeyBaseFromDB : DB → KB
  clientGetKeyBase : DB → KB

/-- The package state: the variable `keybase` of `common.go:21` (`none` is Go's
`nil`), together with a record of the directories on which a database open was
attempted, so that the opens a call performs are part of what it returns. -/
structure State (KB : Type) where
  keybase : Option KB
  opens : List String

/-- The pair `(keys.Keybase, error)` a call returns. -/
abbrev Result (KB Err : Type) := Option KB × Option Err

variable {DB KB Opts Err : Type}

/-- `getKeyBaseFromDirWithOpts` of `common.go:77-86`. -/
def getKeyBaseFromDirWithOpts (env : Env DB KB Opts Err) (rootDir : String)
    (o : Option Opts) (st : State KB) : Result KB Err × State KB :=
  match st.keybase with
  | none =>
    match env.NewGoLevelDBWithOpts KeyDBName (env.Join rootDir "keys") o with
    | Except.error err =>
      ((none, some err), { st with opens := st.opens ++ [env.Join rootDir "keys"] })
    | Except.ok db =>
      ((some (env.clientGetKeyBase db), none),
        { keybase := some (env.clientGetKeyBase db),
          opens := st.opens ++ [env.Join rootDir "keys"] })
  | some kb => ((some kb, none), st)

/-- `GetKeyBaseFromDirWithWritePerm` of `common.go:73-75`. -/
def GetKeyBaseFromDirWithWritePerm (env : Env DB KB Opts Err) (rootDir : String)
    (st : State KB) : Result KB Err × State KB :=
  getKeyBaseFromDirWithOpts env rootDir none st

/-- `GetKeyBaseFromDir` of `common.go:103-112`. -/
def GetKeyBaseFromDir (env : Env DB KB Opts Err) (rootDir : String) (st : State KB) :
    Result KB Err × State KB :=
  match st.keybase with
  | none =>
    match env.NewGoLevelDB KeyDBName (env.Join rootDir "keys") with
    | Except.error err =>
      ((none, some err), { st with opens := st.opens ++ [env.Join rootDir "keys"] })
    | Except.ok db =>
      ((some (env.GetKeyBaseFromDB db), none),
        { keybase := some (env.GetKeyBaseFromDB db),
          opens := st.opens ++ [env.Join rootDir "keys"] })
  | some kb => ((some kb, none), st)

/-- One call of either accessor, in the environment it runs in. -/
inductive Call (DB KB Opts Err : Type) where
  /-- A call `GetKeyBaseFromDir(rootDir)`. -/
  | fromDir (env : Env DB KB Opts Err) (rootDir : String)
  /-- A call `getKeyBaseFromDirWithOpts(rootDir, o)`. -/
  | withOpts (env : Env DB KB Opts Err) (rootDir : String) (o : Option Opts)

/-- Running one call. -/
def Call.run (c : Call DB KB Opts Err) (st : State KB) : Result KB Err × State KB :=
  match c with
  | Call.fromDir env rootDir => GetKeyBaseFromDir env rootDir st
  | Call.withOpts env rootDir o => getKeyBaseFromDirWithOpts env rootDir o st

/-- Running a sequence of calls, collecting what each returned. -/
def runCalls : List (Call DB KB Opts Err) → State KB → List (Result KB Err) × State KB
  | [], st => ([], st)
  | c :: cs, st =>
    let r := c.run st
    let rest := runCalls cs r.2
    (r.1 :: rest.1, rest.2)

/-- An environment for examples: the open of `/tmp/keys` fails, any other
succeeds; a keybase is named after the directory of its database. -/
def demoEnv : Env String String Nat String where
  Join := fun a b => a ++ "/" ++ b
  NewGoLevelDB := fun _ dir =>
    if dir = "/tmp/keys" then Except.error "resource unavailable" else Except.ok dir
  NewGoLevelDBWithOpts := fun _ dir _ =>
    if dir = "/tmp/keys" then Except.error "resource unavailable" else Except.ok dir
  GetKeyBaseFromDB := fun db => "keybase:" ++ db
  clientGetKeyBase := fun db => "keybase:" ++ db

end Keys

/-! ## Lemmas on the decimal rendering -/

namespace Decimal

theorem charDigit_digitChar (d : Nat) (h : d < 10) : charDigit (digitChar d) = some d := by
  interval_cases d <;> rfl

theorem parseDigits_append (xs ys : List Char) (acc : Nat) :
    parseDigits (xs ++ ys) acc = (parseDigits xs acc).bind (fun a => parseDigits ys a) := by
  induction xs generalizing acc with
  | nil => simp [parseDigits]
  | cons c cs ih =>
    simp only [List.cons_append, parseDigits]
    cases charDigit c with
    | none => simp
    | some d => simpa using ih (10 * acc + d)

theorem parseDigits_natDigits (fuel n : Nat) (h : n < fuel) :
    parseDigits (natDigits fuel n) 0 = some n := by
  induction fuel generalizing n with
  | zero => omega
  | succ f ih =>
    unfold natDigits
    split
    · rename_i h10
      simp [parseDigits, charDigit_digitChar n h10]
    · rename_i h10
      have hlt : n / 10 < f := by omega
      rw [parseDigits_append, ih _ hlt]
      simp [parseDigits, charDigit_digitChar (n % 10) (Nat.mod_lt _ (by norm_num))]
      omega

theorem natDigits_ne_nil (fuel n : Nat) (h : n < fuel) : natDigits fuel n ≠ [] := by
  cases fuel with
  | zero => omega
  | succ f =>
    unfold natDigits
    split <;> simp

theorem natDigits_head_digit (fuel n : Nat) (h : n < fuel) :
    ∃ c cs, natDigits fuel n = c :: cs ∧ c ≠ '-' ∧ c ≠ '+' := by
  induction fuel generalizing n with
  | zero => omega
  | succ f ih =>
    unfold natDigits
    split
    · rename_i h10
      refine ⟨digitChar n, [], rfl, ?_, ?_⟩ <;> interval_cases n <;> decide
    · rename_i h10
      obtain ⟨c, cs, hc, h1, h2⟩ := ih (n / 10) (by omega)
      exact ⟨c, cs ++ [digitChar (n % 10)], by simp [hc], h1, h2⟩

theorem readInt_formatInt (i : Int) : readInt (formatInt i) = some i := by
  cases i with
  | ofNat n =>
    obtain ⟨c, cs, hc, h1, h2⟩ := natDigits_head_digit (n + 1) n (by omega)
    have hp := parseDigits_natDigits (n + 1) n (by omega)
    simp only [formatInt, readInt]
    rw [hc] at hp ⊢
    split
    · simp_all
    · simp_all
    · simp_all
    · simp [hp]
  | negSucc n =>
    have hp := parseDigits_natDigits (n + 2) (n + 1) (by omega)
    have hne := natDigits_ne_nil (n + 2) (n + 1) (by omega)
    simp only [formatInt, readInt]
    simp [hne, hp, Int.negSucc_eq]

/-- Reading back what `formatInt` printed for a 64-bit value gives that value. -/
theorem parseInt_formatInt (i : Int) (h : fitsInt64 i = true) :
    parseInt (formatInt i) = some i := by
  simp [parseInt, readInt_formatInt, h]

theorem formatInt_injective : Function.Injective formatInt := by
  intro a b h
  have := congrArg readInt h
  simpa [readInt_formatInt] using this

theorem fitsInt64_iff (x : Int) :
    fitsInt64 x = true ↔ -9223372036854775808 ≤ x ∧ x ≤ 9223372036854775807 := by
  simp [fitsInt64]

end Decimal

/-! ## Lemmas on the rand model -/

namespace Rand

section Lemmas

variable {R σ κ : Type}

theorem iterate_continue (op : σ → Int → R → σ × Bool)
    (q : List (ScheduledItem R)) (s : σ)
    (hop : ∀ x ∈ q, ∀ t, (op t x.dueHeight x.payload).2 = false) :
    IterateRandRequestQueue op q s =
      q.foldl (fun t it => (op t it.dueHeight it.payload).1) s := by
  induction q generalizing s with
  | nil => rfl
  | cons it rest ih =>
    have h1 := hop it (List.mem_cons_self _ _) s
    have h2 := ih (op s it.dueHeight it.payload).1
      (fun x hx t => hop x (List.mem_cons_of_mem _ hx) t)
    simp only [IterateRandRequestQueue, List.foldl_cons]
    rcases hres : op s it.dueHeight it.payload with ⟨s', b⟩
    rw [hres] at h1 h2
    simp only at h1
    subst h1
    exact h2

theorem iterate_logged_continue (op : σ → Int → R → σ × Bool)
    (q : List (ScheduledItem R)) (s : σ) (log : List (Int × R))
    (hop : ∀ x ∈ q, ∀ t, (op t x.dueHeight x.payload).2 = false) :
    IterateRandRequestQueue (logged op) q (s, log) =
      (q.foldl (fun t it => (op t it.dueHeight it.payload).1) s,
        log ++ q.map (fun it => (it.dueHeight, it.payload))) := by
  induction q generalizing s log with
  | nil => simp [IterateRandRequestQueue]
  | cons it rest ih =>
    have h1 := hop it (List.mem_cons_self _ _) s
    have h2 := ih (op s it.dueHeight it.payload).1 (log ++ [(it.dueHeight, it.payload)])
      (fun x hx t => hop x (List.mem_cons_of_mem _ hx) t)
    simp only [IterateRandRequestQueue, logged, h1, List.foldl_cons, List.map_cons]
    rw [h2]
    simp

theorem iterate_logged_extends (op : σ → Int → R → σ × Bool)
    (q : List (ScheduledItem R)) (s : σ) (log : List (Int × R)) :
    ∃ tail, (IterateRandRequestQueue (logged op) q (s, log)).2 = log ++ tail := by
  induction q generalizing s log with
  | nil => exact ⟨[], by simp [IterateRandRequestQueue]⟩
  | cons it rest ih =>
    cases hb : (op s it.dueHeight it.payload).2 with
    | true =>
      exact ⟨[(it.dueHeight, it.payload)], by simp [IterateRandRequestQueue, logged, hb]⟩
    | false =>
      obtain ⟨tail, ht⟩ := ih (op s it.dueHeight it.payload).1
        (log ++ [(it.dueHeight, it.payload)])
      refine ⟨(it.dueHeight, it.payload) :: tail, ?_⟩
      simp only [IterateRandRequestQueue, logged, hb]
      rw [ht]
      simp

theorem iterate_logged_answersFalse (op : σ → Int → R → σ × Bool)
    (pre post : List (ScheduledItem R)) (s : σ) (log : List (Int × R))
    (h : answersFalse op pre s = true) :
    IterateRandRequestQueue (logged op) (pre ++ post) (s, log) =
      IterateRandRequestQueue (logged op) post
        (pre.foldl (fun t x => (op t x.dueHeight x.payload).1) s,
          log ++ pre.map (fun x => (x.dueHeight, x.payload))) := by
  induction pre generalizing s log with
  | nil => simp
  | cons x xs ih =>
    simp only [answersFalse, Bool.and_eq_true, Bool.not_eq_true'] at h
    have h2 := ih (op s x.dueHeight x.payload).1 (log ++ [(x.dueHeight, x.payload)]) h.2
    simp only [List.cons_append, IterateRandRequestQueue, logged, h.1, List.foldl_cons,
      List.map_cons]
    exact h2.trans (by simp)

variable [DecidableEq κ]

theorem appendAt_keys (k : κ) (r : R) (m : List (κ × List R)) :
    (appendAt k r m).map Prod.fst =
      if k ∈ m.map Prod.fst then m.map Prod.fst else m.map Prod.fst ++ [k] := by
  induction m with
  | nil => simp [appendAt]
  | cons e m ih =>
    obtain ⟨k', rs⟩ := e
    by_cases hk : k' = k
    · simp [appendAt, hk]
    · have hk2 : ¬ k = k' := fun h => hk h.symm
      simp only [appendAt, hk, if_false, List.map_cons, ih, List.mem_cons, hk2, false_or]
      split <;> simp

theorem appendAt_mapGet (k k' : κ) (r : R) (m : List (κ × List R)) :
    mapGet k' (appendAt k r m) =
      if k' = k then some ((mapGet k m).getD [] ++ [r]) else mapGet k' m := by
  induction m with
  | nil =>
    by_cases h : k' = k
    · simp [appendAt, mapGet, h]
    · have h2 : ¬ k = k' := fun e => h e.symm
      simp [appendAt, mapGet, h, h2]
  | cons e m ih =>
    obtain ⟨k0, rs⟩ := e
    by_cases hk : k0 = k
    · subst hk
      by_cases h : k' = k0
      · subst h
        simp [appendAt, mapGet]
      · have h2 : ¬ k0 = k' := fun e => h e.symm
        simp [appendAt, mapGet, h, h2]
    · by_cases h0 : k0 = k'
      · subst h0
        simp [appendAt, mapGet, hk]
      · simp only [appendAt, hk, if_false, mapGet, h0, ih]

theorem appendAt_join_perm (k : κ) (r : R) (m : List (κ × List R)) :
    ((appendAt k r m).map Prod.snd).flatten.Perm ((m.map Prod.snd).flatten ++ [r]) := by
  induction m with
  | nil => simp [appendAt]
  | cons e m ih =>
    obtain ⟨k0, rs⟩ := e
    by_cases hk : k0 = k
    · simp only [appendAt, hk, if_true, List.map_cons, List.flatten_cons, List.append_assoc]
      refine List.Perm.append_left rs ?_
      exact List.perm_append_comm
    · simp only [appendAt, hk, if_false, List.map_cons, List.flatten_cons, List.append_assoc]
      exact List.Perm.append_left rs ih


theorem mapGet_eq_none_iff (k : κ) (m : List (κ × List R)) :
    mapGet k m = none ↔ k ∉ m.map Prod.fst := by
  induction m with
  | nil => simp [mapGet]
  | cons e m ih =>
    obtain ⟨k0, rs⟩ := e
    by_cases hk : k0 = k
    · simp [mapGet, hk]
    · have hk2 : ¬ k = k0 := fun h => hk h.symm
      simp [mapGet, hk, hk2, ih]

theorem mapGet_of_mem (k : κ) (l : List R) (m : List (κ × List R))
    (hnd : (m.map Prod.fst).Nodup) (hmem : (k, l) ∈ m) : mapGet k m = some l := by
  induction m with
  | nil => simp at hmem
  | cons e m ih =>
    obtain ⟨k0, rs⟩ := e
    simp only [List.map_cons, List.nodup_cons] at hnd
    rcases List.mem_cons.mp hmem with h | h
    · cases h
      simp [mapGet]
    · have hk : k0 ≠ k := by
        intro e
        subst e
        exact hnd.1 (List.mem_map_of_mem Prod.fst h)
      simp only [mapGet, hk, if_false]
      exact ih hnd.2 h

/-- The fold the export performs: each item is appended under the key `f` gives it. -/
theorem fold_keys_mem (f : ScheduledItem R → κ) (q : List (ScheduledItem R))
    (m0 : List (κ × List R)) (k : κ) :
    k ∈ (q.foldl (fun m it => appendAt (f it) it.payload m) m0).map Prod.fst ↔
      k ∈ m0.map Prod.fst ∨ ∃ it ∈ q, f it = k := by
  induction q generalizing m0 with
  | nil => simp
  | cons x xs ih =>
    simp only [List.foldl_cons, ih, appendAt_keys, List.mem_cons, exists_eq_or_imp]
    by_cases hx : f x ∈ m0.map Prod.fst
    · simp only [hx, if_true]
      constructor
      · rintro (h | h)
        · exact Or.inl h
        · exact Or.inr (Or.inr h)
      · rintro (h | h | h)
        · exact Or.inl h
        · exact Or.inl (h ▸ hx)
        · exact Or.inr h
    · simp only [hx, if_false, List.mem_append, List.mem_singleton]
      constructor
      · rintro ((h | h) | h)
        · exact Or.inl h
        · exact Or.inr (Or.inl h.symm)
        · exact Or.inr (Or.inr h)
      · rintro (h | h | h)
        · exact Or.inl (Or.inl h)
        · exact Or.inl (Or.inr h.symm)
        · exact Or.inr h

theorem fold_keys_nodup (f : ScheduledItem R → κ) (q : List (ScheduledItem R))
    (m0 : List (κ × List R)) (h0 : (m0.map Prod.fst).Nodup) :
    ((q.foldl (fun m it => appendAt (f it) it.payload m) m0).map Prod.fst).Nodup := by
  induction q generalizing m0 with
  | nil => simpa using h0
  | cons x xs ih =>
    simp only [List.foldl_cons]
    apply ih
    rw [appendAt_keys]
    split
    · exact h0
    · rename_i hx
      rw [List.nodup_append]
      refine ⟨h0, List.nodup_singleton _, ?_⟩
      intro a ha hb
      rw [List.mem_singleton] at hb
      exact hx (hb ▸ ha)

theorem fold_mapGet (f : ScheduledItem R → κ) (q : List (ScheduledItem R))
    (m0 : List (κ × List R)) (k : κ) :
    (mapGet k (q.foldl (fun m it => appendAt (f it) it.payload m) m0)).getD [] =
      (mapGet k m0).getD [] ++
        (q.filter (fun it => decide (f it = k))).map (fun it => it.payload) := by
  induction q generalizing m0 with
  | nil => simp
  | cons x xs ih =>
    simp only [List.foldl_cons, ih, appendAt_mapGet]
    by_cases hx : f x = k
    · subst hx
      simp [List.filter_cons]
    · have hx2 : ¬ k = f x := fun h => hx h.symm
      simp [List.filter_cons, hx, hx2]

theorem fold_flatten_perm (f : ScheduledItem R → κ) (q : List (ScheduledItem R))
    (m0 : List (κ × List R)) :
    ((q.foldl (fun m it => appendAt (f it) it.payload m) m0).map Prod.snd).flatten.Perm
      ((m0.map Prod.snd).flatten ++ q.map (fun it => it.payload)) := by
  induction q generalizing m0 with
  | nil => simp
  | cons x xs ih =>
    simp only [List.foldl_cons, List.map_cons]
    refine (ih _).trans ?_
    refine ((appendAt_join_perm (f x) x.payload m0).append_right _).trans ?_
    simp

end Lemmas

end Rand

/-! ## Export/import of the rand request queue -/

namespace Rand

section Export

variable {R : Type}

theorem exportRun_error (policy : StalePolicy) (c : Int) (q : List (ScheduledItem R))
    (fault : IntegrityFault) :
    IterateRandRequestQueue (exportVisit policy c) q (Except.error fault) =
      Except.error fault := by
  induction q with
  | nil => rfl
  | cons it rest ih => simpa [IterateRandRequestQueue, exportVisit] using ih

/-- The export completes when every overdue item may be dropped and every
offset fits; its result is the fold over the items that are not overdue. -/
theorem exportRun_ok (policy : StalePolicy) (c : Int) (q : List (ScheduledItem R))
    (g : GenesisState R)
    (hstale : ∀ it ∈ q, it.dueHeight < c → policy = StalePolicy.drop)
    (hfit : ∀ it ∈ q, c ≤ it.dueHeight → Decimal.fitsInt64 (it.dueHeight - c + 1) = true) :
    IterateRandRequestQueue (exportVisit policy c) q (Except.ok g) =
      Except.ok
        ⟨(pendingFrom c q).foldl
            (fun m it => appendAt (Decimal.formatInt (it.dueHeight - c + 1)) it.payload m)
            g.PendingRandRequests,
          g.Dropped + (overdueAt c q).length⟩ := by
  induction q generalizing g with
  | nil => simp [IterateRandRequestQueue, pendingFrom, overdueAt]
  | cons it rest ih =>
    have hs := fun x hx => hstale x (List.mem_cons_of_mem _ hx)
    have hf := fun x hx => hfit x (List.mem_cons_of_mem _ hx)
    by_cases hlt : it.dueHeight < c
    · have hp := hstale it (List.mem_cons_self _ _) hlt
      subst hp
      have hnle : ¬ c ≤ it.dueHeight := by omega
      simp only [IterateRandRequestQueue, exportVisit, hlt, if_true]
      rw [ih _ hs hf]
      simp [pendingFrom, overdueAt, List.filter_cons, hlt, hnle, Nat.add_assoc, Nat.add_comm 1]
    · have hle : c ≤ it.dueHeight := by omega
      have hfit1 := hfit it (List.mem_cons_self _ _) hle
      simp only [IterateRandRequestQueue, exportVisit, hlt, if_false, hfit1, if_true]
      rw [ih _ hs hf]
      simp [pendingFrom, overdueAt, List.filter_cons, hlt, hle]

/-- A completed export met no overdue item it could not drop and no offset
outside `int64`. -/
theorem exportRun_inv (policy : StalePolicy) (c : Int) (q : List (ScheduledItem R))
    (g g2 : GenesisState R)
    (h : IterateRandRequestQueue (exportVisit policy c) q (Except.ok g) = Except.ok g2) :
    (∀ it ∈ q, it.dueHeight < c → policy = StalePolicy.drop) ∧
    (∀ it ∈ q, c ≤ it.dueHeight → Decimal.fitsInt64 (it.dueHeight - c + 1) = true) := by
  induction q generalizing g with
  | nil => simp
  | cons it rest ih =>
    by_cases hlt : it.dueHeight < c
    · have hnle : ¬ c ≤ it.dueHeight := by omega
      cases policy with
      | refuse =>
        simp [IterateRandRequestQueue, exportVisit, hlt, exportRun_error] at h
      | drop =>
        simp only [IterateRandRequestQueue, exportVisit, hlt, if_true] at h
        obtain ⟨h1, h2⟩ := ih _ h
        refine ⟨fun x hx _ => rfl, fun x hx hxc => ?_⟩
        rcases List.mem_cons.mp hx with rfl | hx
        · exact absurd hxc hnle
        · exact h2 x hx hxc
    · have hle : c ≤ it.dueHeight := by omega
      cases hfit1 : Decimal.fitsInt64 (it.dueHeight - c + 1) with
      | false =>
        simp [IterateRandRequestQueue, exportVisit, hlt, hfit1, exportRun_error] at h
      | true =>
        simp only [IterateRandRequestQueue, exportVisit, hlt, if_false, hfit1, if_true] at h
        obtain ⟨h1, h2⟩ := ih _ h
        refine ⟨fun x hx hxc => ?_, fun x hx hxc => ?_⟩
        · rcases List.mem_cons.mp hx with rfl | hx
          · exact absurd hxc hlt
          · exact h1 x hx hxc
        · rcases List.mem_cons.mp hx with rfl | hx
          · exact hfit1
          · exact h2 x hx hxc

/-- A failed export names its cause: an overdue item under the refusing policy,
or an offset outside `int64`. -/
theorem exportRun_fault (policy : StalePolicy) (c : Int) (q : List (ScheduledItem R))
    (g : GenesisState R) (fault : IntegrityFault)
    (h : IterateRandRequestQueue (exportVisit policy c) q (Except.ok g) = Except.error fault) :
    (fault = IntegrityFault.StaleScheduledItem ∧ policy = StalePolicy.refuse ∧
      ∃ it ∈ q, it.dueHeight < c) ∨
    (fault = IntegrityFault.OffsetOverflow ∧
      ∃ it ∈ q, c ≤ it.dueHeight ∧ Decimal.fitsInt64 (it.dueHeight - c + 1) = false) := by
  induction q generalizing g with
  | nil => simp [IterateRandRequestQueue] at h
  | cons it rest ih =>
    by_cases hlt : it.dueHeight < c
    · cases policy with
      | refuse =>
        simp only [IterateRandRequestQueue, exportVisit, hlt, if_true, exportRun_error,
          Except.error.injEq] at h
        exact Or.inl ⟨h.symm, rfl, it, List.mem_cons_self _ _, hlt⟩
      | drop =>
        simp only [IterateRandRequestQueue, exportVisit, hlt, if_true] at h
        rcases ih _ h with ⟨h1, h2, x, hx, hxc⟩ | ⟨h1, x, hx, hxc⟩
        · exact Or.inl ⟨h1, h2, x, List.mem_cons_of_mem _ hx, hxc⟩
        · exact Or.inr ⟨h1, x, List.mem_cons_of_mem _ hx, hxc⟩
    · have hle : c ≤ it.dueHeight := by omega
      cases hfit1 : Decimal.fitsInt64 (it.dueHeight - c + 1) with
      | false =>
        simp [IterateRandRequestQueue, exportVisit, hlt, hfit1, exportRun_error] at h
        exact Or.inr ⟨h.symm, it, List.mem_cons_self _ _, hle, hfit1⟩
      | true =>
        simp only [IterateRandRequestQueue, exportVisit, hlt, if_false, hfit1, if_true] at h
        rcases ih _ h with ⟨h1, h2, x, hx, hxc⟩ | ⟨h1, x, hx, hxc⟩
        · exact Or.inl ⟨h1, h2, x, List.mem_cons_of_mem _ hx, hxc⟩
        · exact Or.inr ⟨h1, x, List.mem_cons_of_mem _ hx, hxc⟩

theorem export_complete (policy : StalePolicy) (ctx : Context R)
    (hstale : ∀ it ∈ ctx.queue, it.dueHeight < ctx.BlockHeight → policy = StalePolicy.drop)
    (hfit : ∀ it ∈ ctx.queue, ctx.BlockHeight ≤ it.dueHeight →
      Decimal.fitsInt64 (it.dueHeight - ctx.BlockHeight + 1) = true) :
    ExportGenesis policy ctx =
      Except.ok
        ⟨(pendingFrom ctx.BlockHeight ctx.queue).foldl
            (fun m it =>
              appendAt (Decimal.formatInt (it.dueHeight - ctx.BlockHeight + 1)) it.payload m) [],
          (overdueAt ctx.BlockHeight ctx.queue).length⟩ := by
  unfold ExportGenesis
  rw [exportRun_ok policy ctx.BlockHeight ctx.queue _ hstale hfit]
  simp

theorem export_ok_inv (policy : StalePolicy) (ctx : Context R) (g : GenesisState R)
    (h : ExportGenesis policy ctx = Except.ok g) :
    (∀ it ∈ ctx.queue, it.dueHeight < ctx.BlockHeight → policy = StalePolicy.drop) ∧
    (∀ it ∈ ctx.queue, ctx.BlockHeight ≤ it.dueHeight →
      Decimal.fitsInt64 (it.dueHeight - ctx.BlockHeight + 1) = true) ∧
    g.PendingRandRequests =
      (pendingFrom ctx.BlockHeight ctx.queue).foldl
        (fun m it =>
          appendAt (Decimal.formatInt (it.dueHeight - ctx.BlockHeight + 1)) it.payload m) [] ∧
    g.Dropped = (overdueAt ctx.BlockHeight ctx.queue).length := by
  obtain ⟨h1, h2⟩ := exportRun_inv policy ctx.BlockHeight ctx.queue _ g h
  have h3 := export_complete policy ctx h1 h2
  rw [h] at h3
  cases h3
  exact ⟨h1, h2, rfl, rfl⟩

theorem offset_key_eq_iff (c a b : Int) :
    Decimal.formatInt (a - c + 1) = Decimal.formatInt (b - c + 1) ↔ a = b := by
  constructor
  · intro h
    have := Decimal.formatInt_injective h
    omega
  · rintro rfl
    rfl

/-- With `int64` heights and a current height of at least 1, the offset of an
item that is not overdue is an `int64`. -/
theorem offset_fits_of_int64 (c h : Int) (hc : Decimal.fitsInt64 c = true)
    (hh : Decimal.fitsInt64 h = true) (hpos : 1 ≤ c) (hdue : c ≤ h) :
    Decimal.fitsInt64 (h - c + 1) = true := by
  rw [Decimal.fitsInt64_iff] at hc hh ⊢
  omega

theorem requestsAt_pendingFrom (c h : Int) (q : List (ScheduledItem R)) (hc : c ≤ h) :
    requestsAt h (pendingFrom c q) = requestsAt h q := by
  unfold requestsAt pendingFrom
  rw [List.filter_filter]
  congr 1
  apply List.filter_congr
  intro x _
  by_cases hx : x.dueHeight = h
  · simp [hx, hc]
  · simp [hx]

theorem export_mapGet (policy : StalePolicy) (ctx : Context R) (g : GenesisState R)
    (hexp : ExportGenesis policy ctx = Except.ok g) (it : ScheduledItem R)
    (hmem : it ∈ ctx.queue) (hdue : ctx.BlockHeight ≤ it.dueHeight) :
    mapGet (Decimal.formatInt (it.dueHeight - ctx.BlockHeight + 1)) g.PendingRandRequests =
      some (requestsAt it.dueHeight ctx.queue) := by
  obtain ⟨_, _, hP, _⟩ := export_ok_inv policy ctx g hexp
  rw [hP]
  have hmem2 : it ∈ pendingFrom ctx.BlockHeight ctx.queue :=
    List.mem_filter.2 ⟨hmem, by simpa using hdue⟩
  have hget := fold_mapGet
    (fun x : ScheduledItem R => Decimal.formatInt (x.dueHeight - ctx.BlockHeight + 1))
    (pendingFrom ctx.BlockHeight ctx.queue) []
    (Decimal.formatInt (it.dueHeight - ctx.BlockHeight + 1))
  have hkey := (fold_keys_mem
    (fun x : ScheduledItem R => Decimal.formatInt (x.dueHeight - ctx.BlockHeight + 1))
    (pendingFrom ctx.BlockHeight ctx.queue) []
    (Decimal.formatInt (it.dueHeight - ctx.BlockHeight + 1))).2
    (Or.inr ⟨it, hmem2, rfl⟩)
  simp only [offset_key_eq_iff] at hget
  cases hres : mapGet (Decimal.formatInt (it.dueHeight - ctx.BlockHeight + 1))
      ((pendingFrom ctx.BlockHeight ctx.queue).foldl (fun m x =>
        appendAt (Decimal.formatInt (x.dueHeight - ctx.BlockHeight + 1)) x.payload m) []) with
  | none => exact absurd hkey ((mapGet_eq_none_iff _ _).1 hres)
  | some l =>
    rw [hres] at hget
    simp only [Option.getD_some, mapGet, Option.getD_none, List.nil_append] at hget
    rw [hget]
    exact congrArg some (requestsAt_pendingFrom _ _ _ hdue)

theorem export_keys_nodup (policy : StalePolicy) (ctx : Context R) (g : GenesisState R)
    (hexp : ExportGenesis policy ctx = Except.ok g) :
    (g.PendingRandRequests.map Prod.fst).Nodup := by
  obtain ⟨_, _, hP, _⟩ := export_ok_inv policy ctx g hexp
  rw [hP]
  exact fold_keys_nodup _ _ [] (by simp)

theorem export_keys_mem (policy : StalePolicy) (ctx : Context R) (g : GenesisState R)
    (hexp : ExportGenesis policy ctx = Except.ok g) (k : String) :
    k ∈ g.PendingRandRequests.map Prod.fst ↔
      ∃ it ∈ ctx.queue, ctx.BlockHeight ≤ it.dueHeight ∧
        k = Decimal.formatInt (it.dueHeight - ctx.BlockHeight + 1) := by
  obtain ⟨_, _, hP, _⟩ := export_ok_inv policy ctx g hexp
  rw [hP, fold_keys_mem]
  simp only [List.map_nil, List.not_mem_nil, false_or, pendingFrom, List.mem_filter,
    decide_eq_true_eq]
  constructor
  · rintro ⟨it, ⟨hit, hdue⟩, rfl⟩
    exact ⟨it, hit, hdue, rfl⟩
  · rintro ⟨it, hit, hdue, rfl⟩
    exact ⟨it, ⟨hit, hdue⟩, rfl⟩

theorem export_entry (policy : StalePolicy) (ctx : Context R) (g : GenesisState R)
    (hexp : ExportGenesis policy ctx = Except.ok g) (k : String) (l : List R)
    (hmem : (k, l) ∈ g.PendingRandRequests) :
    ∃ it ∈ ctx.queue, ctx.BlockHeight ≤ it.dueHeight ∧
      k = Decimal.formatInt (it.dueHeight - ctx.BlockHeight + 1) ∧
      l = requestsAt it.dueHeight ctx.queue := by
  have hk : k ∈ g.PendingRandRequests.map Prod.fst := List.mem_map_of_mem Prod.fst hmem
  obtain ⟨it, hit, hdue, rfl⟩ := (export_keys_mem policy ctx g hexp k).1 hk
  refine ⟨it, hit, hdue, rfl, ?_⟩
  have h1 := mapGet_of_mem _ l _ (export_keys_nodup policy ctx g hexp) hmem
  rw [export_mapGet policy ctx g hexp it hit hdue] at h1
  exact (Option.some.inj h1).symm

theorem payload_mem_requestsAt (q : List (ScheduledItem R)) (it : ScheduledItem R)
    (hmem : it ∈ q) : it.payload ∈ requestsAt it.dueHeight q := by
  unfold requestsAt
  exact List.mem_map_of_mem _ (List.mem_filter.2 ⟨hmem, by simp⟩)

theorem Enqueue_perm (h : Int) (p : R) (q : List (ScheduledItem R)) :
    (Enqueue h p q).Perm (⟨h, nextSequence h q, p⟩ :: q) := by
  unfold Enqueue
  refine List.perm_middle.trans (List.Perm.cons _ ?_)
  rw [List.takeWhile_append_dropWhile]

theorem pendingFrom_eq_self (c : Int) (q : List (ScheduledItem R))
    (hall : ∀ it ∈ q, c ≤ it.dueHeight) : pendingFrom c q = q := by
  unfold pendingFrom
  exact List.filter_eq_self.2 (fun x hx => by simpa using hall x hx)

theorem overdueAt_eq_nil (c : Int) (q : List (ScheduledItem R))
    (hall : ∀ it ∈ q, c ≤ it.dueHeight) : overdueAt c q = [] := by
  unfold overdueAt
  exact List.filter_eq_nil_iff.2 (fun x hx => by have := hall x hx; simp; omega)

end Export

end Rand

/-! ## The claims on the rand request queue -/

namespace Rand

/-- C1: `ExportGenesis` at height `c` files every pending request due at `h ≥ c`
under the decimal string of the offset `h - c + 1`, which is at least 1 (and is
"1" for an item due exactly at `c`); the list under that key is the list of
requests the queue stores at `h`, in queue order. Conversely every exported key
parses to an offset `o ≥ 1`, and its list is the list the queue stores at height
`o + c - 1`. This holds of every completed export, under either policy for
overdue items; the export completes when no overdue item has to be refused and
every offset is an `int64`, and otherwise it fails with the fault that names
the cause. -/
theorem export_files_under_offset {R : Type} (policy : StalePolicy) (ctx : Context R) :
    ((∀ it ∈ ctx.queue, it.dueHeight < ctx.BlockHeight → policy = StalePolicy.drop) →
      (∀ it ∈ ctx.queue, ctx.BlockHeight ≤ it.dueHeight →
        Decimal.fitsInt64 (it.dueHeight - ctx.BlockHeight + 1) = true) →
      ∃ g, ExportGenesis policy ctx = Except.ok g) ∧
    (∀ fault, ExportGenesis policy ctx = Except.error fault →
      (fault = IntegrityFault.StaleScheduledItem ∧ policy = StalePolicy.refuse ∧
        ∃ it ∈ ctx.queue, it.dueHeight < ctx.BlockHeight) ∨
      (fault = IntegrityFault.OffsetOverflow ∧
        ∃ it ∈ ctx.queue, ctx.BlockHeight ≤ it.dueHeight ∧
          Decimal.fitsInt64 (it.dueHeight - ctx.BlockHeight + 1) = false)) ∧
    (∀ g, ExportGenesis policy ctx = Except.ok g →
      (∀ it ∈ ctx.queue, ctx.BlockHeight ≤ it.dueHeight →
        1 ≤ it.dueHeight - ctx.BlockHeight + 1 ∧
        Decimal.fitsInt64 (it.dueHeight - ctx.BlockHeight + 1) = true ∧
        (it.dueHeight = ctx.BlockHeight →
          Decimal.formatInt (it.dueHeight - ctx.BlockHeight + 1) = "1") ∧
        mapGet (Decimal.formatInt (it.dueHeight - ctx.BlockHeight + 1))
            g.PendingRandRequests =
          some (requestsAt it.dueHeight ctx.queue) ∧
        it.payload ∈ requestsAt it.dueHeight ctx.queue) ∧
      (∀ k l, (k, l) ∈ g.PendingRandRequests →
        ∃ o : Int, Decimal.parseInt k = some o ∧ 1 ≤ o ∧
          l = requestsAt (o + ctx.BlockHeight - 1) ctx.queue) ∧
      g.Dropped = (overdueAt ctx.BlockHeight ctx.queue).length) := by
  refine ⟨fun hstale hfit => ⟨_, export_complete policy ctx hstale hfit⟩,
    fun fault h => exportRun_fault policy ctx.BlockHeight ctx.queue _ fault h, ?_⟩
  intro g hexp
  obtain ⟨_, hfit, _, hdrop⟩ := export_ok_inv policy ctx g hexp
  refine ⟨fun it hmem hdue => ⟨by omega, hfit it hmem hdue, ?_,
    export_mapGet policy ctx g hexp it hmem hdue, payload_mem_requestsAt _ it hmem⟩, ?_, hdrop⟩
  · intro h
    rw [h, sub_self]
    rfl
  · intro k l hkl
    obtain ⟨it, hit, hdue, rfl, rfl⟩ := export_entry policy ctx g hexp k l hkl
    refine ⟨it.dueHeight - ctx.BlockHeight + 1,
      Decimal.parseInt_formatInt _ (hfit it hit hdue), by omega, ?_⟩
    congr 1
    omega

/-- C1 at the scenario of `genesis_test.go`: requests made at height 10000 with
intervals 100 and 200, exported at height 10050, appear under offsets 51 and 151,
and the export has those two keys only. On a queue that also holds an overdue
item the dropping policy exports the pending item under its offset and reports
one item dropped. -/
theorem export_files_under_offset_witness :
    ExportGenesis StalePolicy.refuse (testContext.WithBlockHeight 10050) =
      Except.ok ⟨[("51", ["consumer1"]), ("151", ["consumer2"])], 0⟩ ∧
    mapGet "51" [("51", ["consumer1"]), ("151", ["consumer2"])] = some ["consumer1"] ∧
    mapGet "151" [("51", ["consumer1"]), ("151", ["consumer2"])] = some ["consumer2"] ∧
    ExportGenesis StalePolicy.drop mixedContext = Except.ok ⟨[("51", ["A"])], 1⟩ ∧
    mapGet "51" [("51", ["A"])] = some ["A"] :=
  ⟨rfl,
    (((export_files_under_offset StalePolicy.refuse (testContext.WithBlockHeight 10050)).2.2
      ⟨[("51", ["consumer1"]), ("151", ["consumer2"])], 0⟩ rfl).1
      ⟨10100, 0, "consumer1"⟩ (by decide) (by decide)).2.2.2.1,
    (((export_files_under_offset StalePolicy.refuse (testContext.WithBlockHeight 10050)).2.2
      ⟨[("51", ["consumer1"]), ("151", ["consumer2"])], 0⟩ rfl).1
      ⟨10200, 0, "consumer2"⟩ (by decide) (by decide)).2.2.2.1,
    rfl,
    (((export_files_under_offset StalePolicy.drop mixedContext).2.2
      ⟨[("51", ["A"])], 1⟩ rfl).1 ⟨150, 0, "A"⟩ (by decide) (by decide)).2.2.2.1⟩

/-- C2: round trip. A pending item due at `d ≥ h` in a queue whose export at
height `h` completes is filed under offset `d - h + 1`, an `int64` that is at
least 1 and that the key parses back to; importing that offset at resume height
`h'` enqueues the same payload due at exactly `d - h + h'` and leaves the rest of
the resumed queue as it was, provided the sum `h' + offset` and the due-height
are `int64`s, and fails with `OffsetOverflow` otherwise. The distance from the
resume point equals the distance from the export point. -/
theorem export_import_round_trip {R : Type} (policy : StalePolicy) (src dst : Context R)
    (g : GenesisState R) (it : ScheduledItem R)
    (hexp : ExportGenesis policy src = Except.ok g)
    (hmem : it ∈ src.queue) (hdue : src.BlockHeight ≤ it.dueHeight) :
    1 ≤ it.dueHeight - src.BlockHeight + 1 ∧
    Decimal.fitsInt64 (it.dueHeight - src.BlockHeight + 1) = true ∧
    (∃ l, mapGet (Decimal.formatInt (it.dueHeight - src.BlockHeight + 1))
        g.PendingRandRequests = some l ∧ it.payload ∈ l) ∧
    Decimal.parseInt (Decimal.formatInt (it.dueHeight - src.BlockHeight + 1)) =
      some (it.dueHeight - src.BlockHeight + 1) ∧
    (Decimal.fitsInt64 (dst.BlockHeight + (it.dueHeight - src.BlockHeight + 1)) = true →
      Decimal.fitsInt64 (dst.BlockHeight + (it.dueHeight - src.BlockHeight + 1) - 1) = true →
      ∃ dst2, Import (it.dueHeight - src.BlockHeight + 1) it.payload dst = Except.ok dst2 ∧
        dst2.BlockHeight = dst.BlockHeight ∧
        dst2.queue.Perm
          (⟨it.dueHeight - src.BlockHeight + dst.BlockHeight,
              nextSequence (it.dueHeight - src.BlockHeight + dst.BlockHeight) dst.queue,
              it.payload⟩ :: dst.queue)) ∧
    ((Decimal.fitsInt64 (dst.BlockHeight + (it.dueHeight - src.BlockHeight + 1)) &&
        Decimal.fitsInt64 (dst.BlockHeight + (it.dueHeight - src.BlockHeight + 1) - 1)) =
        false →
      Import (it.dueHeight - src.BlockHeight + 1) it.payload dst =
        Except.error IntegrityFault.OffsetOverflow) ∧
    (it.dueHeight - src.BlockHeight + dst.BlockHeight) - dst.BlockHeight =
      it.dueHeight - src.BlockHeight := by
  obtain ⟨_, hfit, _, _⟩ := export_ok_inv policy src g hexp
  refine ⟨by omega, hfit it hmem hdue,
    ⟨_, export_mapGet policy src g hexp it hmem hdue, payload_mem_requestsAt _ it hmem⟩,
    Decimal.parseInt_formatInt _ (hfit it hmem hdue), ?_, ?_, by omega⟩
  · intro h1 h2
    have hh : dst.BlockHeight + (it.dueHeight - src.BlockHeight + 1) - 1 =
        it.dueHeight - src.BlockHeight + dst.BlockHeight := by omega
    refine ⟨⟨dst.BlockHeight, Enqueue (dst.BlockHeight +
      (it.dueHeight - src.BlockHeight + 1) - 1) it.payload dst.queue⟩,
      by simp [Import, h1, h2], rfl, ?_⟩
    show (Enqueue (dst.BlockHeight + (it.dueHeight - src.BlockHeight + 1) - 1)
      it.payload dst.queue).Perm _
    rw [hh]
    exact Enqueue_perm _ it.payload dst.queue
  · intro h
    simp only [Import, h]
    rfl

/-- C2 at the spec's two examples: due 150 exported at 100 (offset 51) and
imported at 500 is due at 550; due 210 exported at 159 (offset 52) and imported at
1000 is due at 1051. An offset that would carry the due-height past `int64` is
refused. -/
theorem export_import_round_trip_witness :
    (ExportGenesis StalePolicy.refuse (⟨100, [⟨150, 0, "A"⟩]⟩ : Context String) =
        Except.ok ⟨[("51", ["A"])], 0⟩ ∧
      Decimal.parseInt "51" = some 51 ∧
      Import 51 "A" (⟨500, []⟩ : Context String) = Except.ok ⟨500, [⟨550, 0, "A"⟩]⟩ ∧
      ∃ dst2, Import 51 "A" (⟨500, []⟩ : Context String) = Except.ok dst2 ∧
        dst2.BlockHeight = 500 ∧ dst2.queue.Perm [⟨550, 0, "A"⟩]) ∧
    (ExportGenesis StalePolicy.refuse (⟨159, [⟨210, 0, "B"⟩]⟩ : Context String) =
        Except.ok ⟨[("52", ["B"])], 0⟩ ∧
      Decimal.parseInt "52" = some 52 ∧
      Import 52 "B" (⟨1000, []⟩ : Context String) = Except.ok ⟨1000, [⟨1051, 0, "B"⟩]⟩ ∧
      ∃ dst2, Import 52 "B" (⟨1000, []⟩ : Context String) = Except.ok dst2 ∧
        dst2.BlockHeight = 1000 ∧ dst2.queue.Perm [⟨1051, 0, "B"⟩]) ∧
    Import (9223372036854775807 - 1 + 1) "C" (⟨3, []⟩ : Context String) =
      Except.error IntegrityFault.OffsetOverflow :=
  ⟨⟨rfl,
      (export_import_round_trip StalePolicy.refuse (⟨100, [⟨150, 0, "A"⟩]⟩ : Context String)
        ⟨500, []⟩ ⟨[("51", ["A"])], 0⟩ ⟨150, 0, "A"⟩ rfl (by decide) (by decide)).2.2.2.1,
      rfl,
      (export_import_round_trip StalePolicy.refuse (⟨100, [⟨150, 0, "A"⟩]⟩ : Context String)
        ⟨500, []⟩ ⟨[("51", ["A"])], 0⟩ ⟨150, 0, "A"⟩ rfl (by decide)
        (by decide)).2.2.2.2.1 rfl rfl⟩,
    ⟨rfl,
      (export_import_round_trip StalePolicy.refuse (⟨159, [⟨210, 0, "B"⟩]⟩ : Context String)
        ⟨1000, []⟩ ⟨[("52", ["B"])], 0⟩ ⟨210, 0, "B"⟩ rfl (by decide) (by decide)).2.2.2.1,
      rfl,
      (export_import_round_trip StalePolicy.refuse (⟨159, [⟨210, 0, "B"⟩]⟩ : Context String)
        ⟨1000, []⟩ ⟨[("52", ["B"])], 0⟩ ⟨210, 0, "B"⟩ rfl (by decide)
        (by decide)).2.2.2.2.1 rfl rfl⟩,
    (export_import_round_trip StalePolicy.refuse
      (⟨1, [⟨9223372036854775807, 0, "C"⟩]⟩ : Context String) ⟨3, []⟩
      ⟨[("9223372036854775807", ["C"])], 0⟩ ⟨9223372036854775807, 0, "C"⟩ rfl
      (by decide) (by decide)).2.2.2.2.2.1 rfl⟩

end Rand

namespace Rand

theorem export_keys_perm {R : Type} (policy : StalePolicy) (ctx : Context R)
    (g : GenesisState R) (hexp : ExportGenesis policy ctx = Except.ok g)
    (hall : ∀ it ∈ ctx.queue, ctx.BlockHeight ≤ it.dueHeight) :
    (g.PendingRandRequests.map Prod.fst).Perm
      (((ctx.queue.map (fun it => it.dueHeight)).dedup).map
        (fun h => Decimal.formatInt (h - ctx.BlockHeight + 1))) := by
  have hinj : Function.Injective (fun h : Int => Decimal.formatInt (h - ctx.BlockHeight + 1)) :=
    fun a b h => (offset_key_eq_iff ctx.BlockHeight a b).1 h
  refine (List.perm_ext_iff_of_nodup (export_keys_nodup policy ctx g hexp)
    ((List.nodup_dedup _).map hinj)).2 ?_
  intro k
  rw [export_keys_mem policy ctx g hexp k]
  simp only [List.mem_map, List.mem_dedup]
  constructor
  · rintro ⟨it, hit, _, rfl⟩
    exact ⟨it.dueHeight, ⟨it, hit, rfl⟩, rfl⟩
  · rintro ⟨h, ⟨it, hit, rfl⟩, rfl⟩
    exact ⟨it, hit, hall it hit, rfl⟩

/-- C3: export loses and invents nothing. For a queue whose pending items are all
due at or after the export height, under either policy: the export completes when
every offset is an `int64`, and can fail only with `OffsetOverflow`; in a
completed export the keys are pairwise distinct, there is one for each distinct
pending due-height and no other (so as many keys as distinct due-heights), the
lists under the keys together hold every pending request exactly once, the list
under the key of a due-height is the queue's requests at that height in queue
order, and nothing is reported dropped. -/
theorem export_loses_and_invents_nothing {R : Type} (policy : StalePolicy) (ctx : Context R)
    (hall : ∀ it ∈ ctx.queue, ctx.BlockHeight ≤ it.dueHeight) :
    ((∀ it ∈ ctx.queue, Decimal.fitsInt64 (it.dueHeight - ctx.BlockHeight + 1) = true) →
      ∃ g, ExportGenesis policy ctx = Except.ok g) ∧
    (∀ fault, ExportGenesis policy ctx = Except.error fault →
      fault = IntegrityFault.OffsetOverflow ∧
        ∃ it ∈ ctx.queue, Decimal.fitsInt64 (it.dueHeight - ctx.BlockHeight + 1) = false) ∧
    (∀ g, ExportGenesis policy ctx = Except.ok g →
      (g.PendingRandRequests.map Prod.fst).Nodup ∧
      (∀ k, k ∈ g.PendingRandRequests.map Prod.fst ↔
        ∃ it ∈ ctx.queue, 1 ≤ it.dueHeight - ctx.BlockHeight + 1 ∧
          k = Decimal.formatInt (it.dueHeight - ctx.BlockHeight + 1)) ∧
      (∀ a ∈ ctx.queue, ∀ b ∈ ctx.queue,
        (Decimal.formatInt (a.dueHeight - ctx.BlockHeight + 1) =
          Decimal.formatInt (b.dueHeight - ctx.BlockHeight + 1) ↔
            a.dueHeight = b.dueHeight)) ∧
      g.PendingRandRequests.length =
        ((ctx.queue.map (fun it => it.dueHeight)).dedup).length ∧
      ((g.PendingRandRequests.map Prod.snd).flatten).Perm
        (ctx.queue.map (fun it => it.payload)) ∧
      (∀ it ∈ ctx.queue,
        mapGet (Decimal.formatInt (it.dueHeight - ctx.BlockHeight + 1))
            g.PendingRandRequests =
          some (requestsAt it.dueHeight ctx.queue)) ∧
      g.Dropped = 0) := by
  refine ⟨?_, ?_, ?_⟩
  · intro hfit
    exact ⟨_, export_complete policy ctx
      (fun it hit hlt => absurd (hall it hit) (by omega)) (fun it hit _ => hfit it hit)⟩
  · intro fault h
    rcases exportRun_fault policy ctx.BlockHeight ctx.queue _ fault h with
      ⟨_, _, it, hit, hlt⟩ | ⟨h1, it, hit, _, hf⟩
    · exact absurd (hall it hit) (by omega)
    · exact ⟨h1, it, hit, hf⟩
  · intro g hexp
    obtain ⟨_, _, hP, hdrop⟩ := export_ok_inv policy ctx g hexp
    refine ⟨export_keys_nodup policy ctx g hexp, ?_, fun a _ b _ => offset_key_eq_iff _ _ _,
      ?_, ?_, fun it hit => export_mapGet policy ctx g hexp it hit (hall it hit), ?_⟩
    · intro k
      rw [export_keys_mem policy ctx g hexp k]
      constructor
      · rintro ⟨it, hit, hdue, rfl⟩
        exact ⟨it, hit, by omega, rfl⟩
      · rintro ⟨it, hit, _, rfl⟩
        exact ⟨it, hit, hall it hit, rfl⟩
    · have := (export_keys_perm policy ctx g hexp hall).length_eq
      simpa using this
    · rw [hP, pendingFrom_eq_self _ _ hall]
      simpa using fold_flatten_perm
        (fun x : ScheduledItem R => Decimal.formatInt (x.dueHeight - ctx.BlockHeight + 1))
        ctx.queue []
    · rw [hdrop, overdueAt_eq_nil _ _ hall]
      rfl

/-- C3 at the scenario of `genesis_test.go`: two requests pending at two distinct
heights give an export with exactly two keys, holding the two requests. -/
theorem export_loses_and_invents_nothing_witness :
    (∀ it ∈ (testContext.WithBlockHeight 10050).queue,
      (testContext.WithBlockHeight 10050).BlockHeight ≤ it.dueHeight) ∧
    ExportGenesis StalePolicy.refuse (testContext.WithBlockHeight 10050) =
      Except.ok ⟨[("51", ["consumer1"]), ("151", ["consumer2"])], 0⟩ ∧
    ([("51", ["consumer1"]), ("151", ["consumer2"])] : List (String × List String)).length =
      2 ∧
    ((([("51", ["consumer1"]), ("151", ["consumer2"])] : List (String × List String)).map
      Prod.snd).flatten).Perm ["consumer1", "consumer2"] :=
  ⟨by decide, rfl,
    ((export_loses_and_invents_nothing StalePolicy.refuse (testContext.WithBlockHeight 10050)
      (by decide)).2.2 ⟨[("51", ["consumer1"]), ("151", ["consumer2"])], 0⟩ rfl).2.2.2.1,
    ((export_loses_and_invents_nothing StalePolicy.refuse (testContext.WithBlockHeight 10050)
      (by decide)).2.2 ⟨[("51", ["consumer1"]), ("151", ["consumer2"])], 0⟩ rfl).2.2.2.2.1⟩

/-- C4: `IterateRandRequestQueue` with a visitor that returns false on every item
invokes the visitor once for each pending request, in queue order, passing that
request's due-height: the invocation log is the whole queue, and the visitor's
state is the fold of the visitor over the whole queue. -/
theorem iterate_false_visits_every_request {R σ : Type} (op : σ → Int → R → σ × Bool)
    (q : List (ScheduledItem R)) (s : σ) (hop : ∀ t h r, (op t h r).2 = false) :
    (IterateRandRequestQueue (logged op) q (s, [])).2 =
      q.map (fun it => (it.dueHeight, it.payload)) ∧
    (IterateRandRequestQueue (logged op) q (s, [])).2.length = q.length ∧
    IterateRandRequestQueue op q s =
      q.foldl (fun t it => (op t it.dueHeight it.payload).1) s := by
  have h1 := iterate_logged_continue op q s [] (fun x _ t => hop t x.dueHeight x.payload)
  refine ⟨by rw [h1]; simp, by rw [h1]; simp, ?_⟩
  exact iterate_continue op q s (fun x _ t => hop t x.dueHeight x.payload)

/-- C4 at the scenario of `genesis_test.go`: after two `RequestRand` calls with
intervals 100 and 200 at height 10000, the test's visitor (which returns false)
is invoked on both requests and collects them under 2 distinct heights. -/
theorem iterate_false_visits_every_request_witness :
    (∀ (t : List (Int × List String)) (h : Int) (r : String),
      (storeRequest t h r).2 = false) ∧
    (IterateRandRequestQueue (logged storeRequest) testContext.queue ([], [])).2 =
      [(10100, "consumer1"), (10200, "consumer2")] ∧
    IterateRandRequestQueue storeRequest testContext.queue [] =
      [(10100, ["consumer1"]), (10200, ["consumer2"])] ∧
    (IterateRandRequestQueue storeRequest testContext.queue []).length = 2 :=
  ⟨fun _ _ _ => rfl,
    (iterate_false_visits_every_request storeRequest testContext.queue []
      (fun _ _ _ => rfl)).1,
    (iterate_false_visits_every_request storeRequest testContext.queue []
      (fun _ _ _ => rfl)).2.2,
    by decide⟩

/-- C5 as stated fails: it is not the case that a visitor returning false stops
the iteration. On the two-request queue of `genesis_test.go` the visitor returns
false on the first request and is still invoked on the second. -/
theorem iterate_false_does_not_stop :
    ¬ (∀ (op : Unit → Int → String → Unit × Bool) (pre post : List (ScheduledItem String))
        (it : ScheduledItem String),
        (∀ t, (op t it.dueHeight it.payload).2 = false) →
        (IterateRandRequestQueue (logged op) (pre ++ it :: post) ((), [])).2.length ≤
          pre.length + 1) := by
  intro h
  have h2 := h (fun _ _ _ => ((), false)) [] [⟨10200, 0, "consumer2"⟩]
    ⟨10100, 0, "consumer1"⟩ (fun _ => rfl)
  revert h2
  decide

theorem remove_all_queue {R : Type} (removed : List (Int × Nat)) (ctx : Context R) :
    (removed.foldl (fun c r => Remove r.1 r.2 c) ctx).queue =
      ctx.queue.filter (fun it => decide ((it.dueHeight, it.sequence) ∉ removed)) := by
  induction removed generalizing ctx with
  | nil => simp
  | cons r rest ih =>
    simp only [List.foldl_cons]
    rw [ih]
    simp only [Remove, List.filter_filter]
    apply List.filter_congr
    intro x _
    obtain ⟨a, b⟩ := r
    by_cases hx : x.dueHeight = a ∧ x.sequence = b
    · simp [hx.1, hx.2]
    · by_cases hmem : (x.dueHeight, x.sequence) ∈ rest
      · simp [hmem]
      · have hne : ¬ (x.dueHeight = a ∧ x.sequence = b) := hx
        simp only [List.mem_cons, Prod.mk.injEq, hmem, or_false, hne, not_false_eq_true,
          decide_True, Bool.true_and, Bool.not_eq_true', Bool.and_eq_false_imp,
          decide_eq_true_eq, decide_eq_false_iff_not]
        intro h1 h2
        exact hne ⟨h1, h2⟩

/-- C5, amended: a visitor returning false on an item does not stop the
iteration. If the visitor, stateful or not, returns false on an item and on the
items before it, each answer taken in the state the visitor has reached, then it
is invoked on the next item as well. The iteration hands the store back as it
received it, so after any explicit removals a later iteration whose visitor
returns false on the items it is shown, whatever the height it runs at (the same
or a later one in particular), is invoked on exactly the items that were not
removed, in queue order. -/
theorem iterate_continues_and_deletes_nothing {R σ τ : Type} (ctx : Context R)
    (op : σ → Int → R → σ × Bool) (s : σ) :
    (∀ (pre post : List (ScheduledItem R)) (it nxt : ScheduledItem R),
      ctx.queue = pre ++ it :: nxt :: post →
      answersFalse op (pre ++ [it]) s = true →
      ∃ rest, (iterateQueue ctx (logged op) (s, [])).2.2 =
        (pre ++ [it, nxt]).map (fun x => (x.dueHeight, x.payload)) ++ rest) ∧
    (iterateQueue ctx op s).1 = ctx ∧
    (∀ (removed : List (Int × Nat)) (h : Int) (op2 : τ → Int → R → τ × Bool) (s2 : τ),
      answersFalse op2
        (ctx.queue.filter (fun x => decide ((x.dueHeight, x.sequence) ∉ removed))) s2 = true →
      (iterateQueue
          ((removed.foldl (fun c r => Remove r.1 r.2 c)
            (iterateQueue ctx op s).1).WithBlockHeight h)
          (logged op2) (s2, [])).2.2 =
        (ctx.queue.filter (fun x => decide ((x.dueHeight, x.sequence) ∉ removed))).map
          (fun x => (x.dueHeight, x.payload)) ∧
      ∀ x ∈ ctx.queue, (x.dueHeight, x.sequence) ∉ removed →
        (x.dueHeight, x.payload) ∈
          (iterateQueue
            ((removed.foldl (fun c r => Remove r.1 r.2 c)
              (iterateQueue ctx op s).1).WithBlockHeight h)
            (logged op2) (s2, [])).2.2) := by
  refine ⟨?_, rfl, ?_⟩
  · intro pre post it nxt hq hans
    have h1 := iterate_logged_answersFalse op (pre ++ [it]) (nxt :: post) s [] hans
    obtain ⟨tail, ht⟩ := iterate_logged_extends op post
      (op ((pre ++ [it]).foldl (fun t x => (op t x.dueHeight x.payload).1) s)
        nxt.dueHeight nxt.payload).1
      (([] ++ (pre ++ [it]).map (fun x => (x.dueHeight, x.payload))) ++
        [(nxt.dueHeight, nxt.payload)])
    have hq2 : ctx.queue = (pre ++ [it]) ++ nxt :: post := by simp [hq]
    show ∃ rest, (IterateRandRequestQueue (logged op) ctx.queue (s, [])).2 = _
    rw [hq2, h1]
    cases hb : (op ((pre ++ [it]).foldl (fun t x => (op t x.dueHeight x.payload).1) s)
        nxt.dueHeight nxt.payload).2 with
    | true =>
      refine ⟨[], ?_⟩
      simp only [IterateRandRequestQueue, logged, hb]
      simp
    | false =>
      refine ⟨tail, ?_⟩
      simp only [IterateRandRequestQueue, logged, hb]
      rw [ht]
      simp
  · intro removed h op2 s2 hop2
    have hlog : (iterateQueue
        ((removed.foldl (fun c r => Remove r.1 r.2 c)
          (iterateQueue ctx op s).1).WithBlockHeight h)
        (logged op2) (s2, [])).2.2 =
        (ctx.queue.filter (fun x => decide ((x.dueHeight, x.sequence) ∉ removed))).map
          (fun x => (x.dueHeight, x.payload)) := by
      show (IterateRandRequestQueue (logged op2)
        (removed.foldl (fun c r => Remove r.1 r.2 c) ctx).queue (s2, [])).2 = _
      rw [remove_all_queue]
      have h3 := iterate_logged_answersFalse op2 _ [] s2 [] hop2
      rw [List.append_nil] at h3
      rw [h3]
      simp [IterateRandRequestQueue]
    refine ⟨hlog, ?_⟩
    intro x hx hnot
    rw [hlog]
    exact List.mem_map_of_mem _ (List.mem_filter.2 ⟨hx, by simpa using hnot⟩)

/-- C5 amended, on the queue of `genesis_test.go` with a visitor whose answer
depends on how many items it has seen: having returned false on the first
request it is invoked on the second; after the first request is removed, a later
iteration at height 10050 is invoked on the second request, which was not. -/
theorem iterate_continues_and_deletes_nothing_witness :
    (testContext.queue = [] ++ ⟨10100, 0, "consumer1"⟩ :: ⟨10200, 0, "consumer2"⟩ :: []) ∧
    answersFalse countToThree ([] ++ [⟨10100, 0, "consumer1"⟩]) 0 = true ∧
    (∃ rest, (iterateQueue testContext (logged countToThree) (0, [])).2.2 =
      [(10100, "consumer1"), (10200, "consumer2")] ++ rest) ∧
    (iterateQueue
        ((Remove 10100 0 (iterateQueue testContext countToThree 0).1).WithBlockHeight 10050)
        (logged storeRequest) ([], [])).2.2 = [(10200, "consumer2")] :=
  ⟨by decide, by decide,
    (iterate_continues_and_deletes_nothing (τ := List (Int × List String)) testContext
      countToThree 0).1 [] [] ⟨10100, 0, "consumer1"⟩ ⟨10200, 0, "consumer2"⟩
      (by decide) (by decide),
    ((iterate_continues_and_deletes_nothing (τ := List (Int × List String)) testContext
      countToThree 0).2.2 [(10100, 0)] 10050 storeRequest [] (by decide)).1⟩

end Rand

/-! ## The service querier -/

namespace Service

variable {T : Types}

/-- A loop whose body appends `r` whenever `g` yields `some r` on the entry
collects, on entries where `g` always yields, exactly the values yielded. -/
theorem forEachEntry_collect {β : Type}
    (body : List β → Bytes → Bytes → Except GoPanic (List β))
    (g : Bytes × Bytes → Option β)
    (hbody : ∀ e r, g e = some r → ∀ a, body a e.1 e.2 = Except.ok (a ++ [r]))
    (entries : List (Bytes × Bytes)) (rs : List β) (acc : List β)
    (hdec : entries.map g = rs.map some) :
    forEachEntry body entries acc = Except.ok (acc ++ rs) := by
  induction entries generalizing rs acc with
  | nil =>
    cases rs with
    | nil => simp [forEachEntry]
    | cons r rs => simp at hdec
  | cons e rest ih =>
    cases rs with
    | nil => simp at hdec
    | cons r rs =>
      obtain ⟨key, value⟩ := e
      simp only [List.map_cons, List.cons.injEq] at hdec
      have h1 := hbody (key, value) r hdec.1 acc
      simp only at h1
      simp only [forEachEntry, h1]
      rw [ih rs (acc ++ [r]) hdec.2]
      simp

theorem queryResponses_eq (ctx : T.Context) (req : RequestQuery) (k : Keeper T)
    (params : QueryResponsesParams) (responses : List T.Response)
    (hparams : k.cdc.unmarshalResponsesParams req.Data = Except.ok params)
    (hdec : (k.ResponsesIteratorByReqCtx ctx params.RequestContextID params.BatchCounter).map
      (fun e => k.cdc.mustUnmarshalResponse e.2) = responses.map some) :
    queryResponses ctx req k =
      Except.ok (returnMarshalled (k.cdc.marshalResponses responses)) := by
  unfold queryResponses
  simp only [hparams]
  rw [forEachEntry_collect _ (fun e => k.cdc.mustUnmarshalResponse e.2) ?_ _ responses [] hdec]
  · simp
  · intro e r he a
    simp only at he
    simp [he]

theorem queryRequestsByReqCtx_eq (ctx : T.Context) (req : RequestQuery) (k : Keeper T)
    (params : QueryRequestsByReqCtxParams) (ids : List Bytes)
    (hparams : k.cdc.unmarshalRequestsByReqCtxParams req.Data = Except.ok params)
    (hkeys : (k.RequestsIteratorByReqCtx ctx params.RequestContextID params.BatchCounter).map
      (fun e => keyRequestID e.1) = ids.map some) :
    queryRequestsByReqCtx ctx req k =
      Except.ok (returnMarshalled
        (k.cdc.marshalRequests (ids.map (fun id => (k.GetRequest ctx id).1)))) := by
  unfold queryRequestsByReqCtx
  simp only [hparams]
  rw [forEachEntry_collect _
    (fun e => (keyRequestID e.1).map (fun id => (k.GetRequest ctx id).1)) ?_ _
    (ids.map (fun id => (k.GetRequest ctx id).1)) []]
  · simp
  · have := congrArg (List.map (Option.map (fun id => (k.GetRequest ctx id).1))) hkeys
    simpa [Function.comp_def] using this
  · intro e r he a
    obtain ⟨key, value⟩ := e
    cases key with
    | nil => simp [keyRequestID] at he
    | cons b id =>
      simp only [keyRequestID, Option.map_some', Option.some.injEq] at he
      simp [he]

theorem queryRequests_eq (ctx : T.Context) (req : RequestQuery) (k : Keeper T)
    (params : QueryRequestsParams) (ids : List Bytes)
    (hparams : k.cdc.unmarshalRequestsParams req.Data = Except.ok params)
    (hdec : (k.ActiveRequestsIterator ctx params.ServiceName params.Provider).map
      (fun e => k.cdc.mustUnmarshalRequestID e.2) = ids.map some) :
    queryRequests ctx req k =
      Except.ok (returnMarshalled
        (k.cdc.marshalRequests (ids.map (fun id => (k.GetRequest ctx id).1)))) := by
  unfold queryRequests
  simp only [hparams]
  rw [forEachEntry_collect _
    (fun e => (k.cdc.mustUnmarshalRequestID e.2).map (fun id => (k.GetRequest ctx id).1)) ?_ _
    (ids.map (fun id => (k.GetRequest ctx id).1)) []]
  · simp
  · have := congrArg (List.map (Option.map (fun id => (k.GetRequest ctx id).1))) hdec
    simpa [Function.comp_def] using this
  · intro e r he a
    cases hid : k.cdc.mustUnmarshalRequestID e.2 with
    | none => simp [hid] at he
    | some id =>
      simp only [hid, Option.map_some', Option.some.injEq] at he
      simp [hid, he]

theorem map_some_length {α β : Type} (g : α → Option β) (xs : List α) (ys : List β)
    (h : xs.map g = ys.map some) : ys.length = xs.length := by
  have := congrArg List.length h
  simpa using this.symm

end Service

namespace Service

variable {T : Types}

theorem map_some_getElem {α β : Type} (g : α → Option β) (xs : List α) (ys : List β)
    (h : xs.map g = ys.map some) (i : Nat) (x : α) (hx : xs[i]? = some x) :
    ∃ y, g x = some y ∧ ys[i]? = some y := by
  have h1 : (xs.map g)[i]? = (ys.map some)[i]? := by rw [h]
  rw [List.getElem?_map, List.getElem?_map, hx] at h1
  cases hy : ys[i]? with
  | none => simp [hy] at h1
  | some y =>
    rw [hy] at h1
    simp only [Option.map_some', Option.some.injEq] at h1
    exact ⟨y, h1, rfl⟩

theorem keys_tail {entries : List (Bytes × Bytes)} (hne : ∀ e ∈ entries, e.1 ≠ []) :
    entries.map (fun e => keyRequestID e.1) = (entries.map (fun e => e.1.tail)).map some := by
  rw [List.map_map]
  apply List.map_congr_left
  intro e he
  obtain ⟨key, value⟩ := e
  cases key with
  | nil => exact absurd rfl (hne _ he)
  | cons b id => rfl

theorem returnMarshalled_ok (r : Except String Bytes) (bz : Bytes) (h : r = Except.ok bz) :
    returnMarshalled r = (some bz, none) := by
  subst h
  rfl

/-- C6: correlation scan as served by the querier. When the parameters decode to
a request-context id and batch counter and the bounded iterator yields `N`
entries: `queryResponses` passes to the encoder a list of exactly `N` responses,
the `i`-th being the decoding of the `i`-th iterator value, and returns the
encoder's bytes with a nil error; `queryRequestsByReqCtx` does so with the list of
exactly `N` requests whose `i`-th element is what `GetRequest` gives for the
`i`-th iterator key without its first byte. The lists follow the iterator's
order, one element per entry. -/
theorem querier_scan_complete (ctx : T.Context) (req : RequestQuery) (k : Keeper T) :
    (∀ (params : QueryResponsesParams) (responses : List T.Response),
      k.cdc.unmarshalResponsesParams req.Data = Except.ok params →
      (k.ResponsesIteratorByReqCtx ctx params.RequestContextID params.BatchCounter).map
        (fun e => k.cdc.mustUnmarshalResponse e.2) = responses.map some →
      responses.length =
        (k.ResponsesIteratorByReqCtx ctx params.RequestContextID params.BatchCounter).length ∧
      (∀ (i : Nat) (e : Bytes × Bytes),
        (k.ResponsesIteratorByReqCtx ctx params.RequestContextID params.BatchCounter)[i]? =
          some e →
        ∃ r, k.cdc.mustUnmarshalResponse e.2 = some r ∧ responses[i]? = some r) ∧
      queryResponses ctx req k =
        Except.ok (returnMarshalled (k.cdc.marshalResponses responses)) ∧
      (∀ bz, k.cdc.marshalResponses responses = Except.ok bz →
        queryResponses ctx req k = Except.ok (some bz, none))) ∧
    (∀ (params : QueryRequestsByReqCtxParams),
      k.cdc.unmarshalRequestsByReqCtxParams req.Data = Except.ok params →
      (∀ e ∈ k.RequestsIteratorByReqCtx ctx params.RequestContextID params.BatchCounter,
        e.1 ≠ []) →
      ((k.RequestsIteratorByReqCtx ctx params.RequestContextID params.BatchCounter).map
        (fun e => (k.GetRequest ctx e.1.tail).1)).length =
        (k.RequestsIteratorByReqCtx ctx params.RequestContextID params.BatchCounter).length ∧
      queryRequestsByReqCtx ctx req k =
        Except.ok (returnMarshalled (k.cdc.marshalRequests
          ((k.RequestsIteratorByReqCtx ctx params.RequestContextID params.BatchCounter).map
            (fun e => (k.GetRequest ctx e.1.tail).1)))) ∧
      (∀ bz, k.cdc.marshalRequests
          ((k.RequestsIteratorByReqCtx ctx params.RequestContextID params.BatchCounter).map
            (fun e => (k.GetRequest ctx e.1.tail).1)) = Except.ok bz →
        queryRequestsByReqCtx ctx req k = Except.ok (some bz, none))) := by
  constructor
  · intro params responses hparams hdec
    have heq := queryResponses_eq ctx req k params responses hparams hdec
    refine ⟨map_some_length _ _ _ hdec, ?_, heq, ?_⟩
    · intro i e he
      exact map_some_getElem _ _ _ hdec i e he
    · intro bz hbz
      rw [heq, returnMarshalled_ok _ bz hbz]
  · intro params hparams hne
    have heq := queryRequestsByReqCtx_eq ctx req k params _ hparams (keys_tail hne)
    rw [List.map_map] at heq
    refine ⟨by simp, heq, ?_⟩
    intro bz hbz
    rw [heq]
    exact congrArg Except.ok (returnMarshalled_ok _ bz hbz)

/-- C6 on the example keeper: the two entries of each index are served as two
responses, resp. two requests, in index order. -/
theorem querier_scan_complete_witness :
    queryResponses (T := demoTypes) demoCtx ⟨[1, 5]⟩ demoKeeper =
      Except.ok (some [101, 102], none) ∧
    queryRequestsByReqCtx (T := demoTypes) demoCtx ⟨[1, 5]⟩ demoKeeper =
      Except.ok (some [42], none) :=
  ⟨((querier_scan_complete (T := demoTypes) demoCtx ⟨[1, 5]⟩ demoKeeper).1
      ⟨[5], 1⟩ [[101], [102]] rfl rfl).2.2.2 [101, 102] rfl,
    ((querier_scan_complete (T := demoTypes) demoCtx ⟨[1, 5]⟩ demoKeeper).2
      ⟨[5], 1⟩ rfl (by decide)).2.2 [42] rfl⟩

end Service

namespace Service

variable {T : Types}

/-- C7: the querier is a closed dispatch on `path[0]`. The eleven query names
being pairwise distinct (Go rejects a `switch` with a repeated constant case),
for a non-empty path whose first element is one of them the querier returns
exactly the result of that name's handler; for any other first element it
returns nil bytes with the unknown-request error "unknown service query
endpoint"; the elements after the first do not influence the result. -/
theorem NewQuerier_closed_dispatch (t : TypesPkg) (k : Keeper T) (ctx : T.Context)
    (req : RequestQuery) (p : String) (rest : List String) (hnames : t.queryNames.Nodup) :
    (p = t.QueryDefinition → NewQuerier t k ctx (p :: rest) req = queryDefinition t ctx req k) ∧
    (p = t.QueryBinding → NewQuerier t k ctx (p :: rest) req = queryBinding t ctx req k) ∧
    (p = t.QueryBindings → NewQuerier t k ctx (p :: rest) req = queryBindings ctx req k) ∧
    (p = t.QueryWithdrawAddress →
      NewQuerier t k ctx (p :: rest) req = queryWithdrawAddress ctx req k) ∧
    (p = t.QueryRequest → NewQuerier t k ctx (p :: rest) req = queryRequest t ctx req k) ∧
    (p = t.QueryRequests → NewQuerier t k ctx (p :: rest) req = queryRequests ctx req k) ∧
    (p = t.QueryResponse → NewQuerier t k ctx (p :: rest) req = queryResponse t ctx req k) ∧
    (p = t.QueryRequestContext →
      NewQuerier t k ctx (p :: rest) req = queryRequestContext t ctx req k) ∧
    (p = t.QueryRequestsByReqCtx →
      NewQuerier t k ctx (p :: rest) req = queryRequestsByReqCtx ctx req k) ∧
    (p = t.QueryResponses → NewQuerier t k ctx (p :: rest) req = queryResponses ctx req k) ∧
    (p = t.QueryFees → NewQuerier t k ctx (p :: rest) req = queryFees t ctx req k) ∧
    (p ∉ t.queryNames →
      NewQuerier t k ctx (p :: rest) req =
        Except.ok (none, some (SdkError.sdkErrUnknownRequest "unknown service query endpoint"))) ∧
    (∀ rest2 : List String,
      NewQuerier t k ctx (p :: rest2) req = NewQuerier t k ctx (p :: rest) req) := by
  simp only [TypesPkg.queryNames, List.nodup_cons, List.mem_cons, List.mem_singleton,
    List.not_mem_nil, not_or, List.nodup_nil, or_false, and_true] at hnames
  obtain ⟨h1, h2, h3, h4, h5, h6, h7, h8, h9, h10⟩ := hnames
  refine ⟨?_, ?_, ?_, ?_, ?_, ?_, ?_, ?_, ?_, ?_, ?_, ?_, fun _ => rfl⟩
  · rintro rfl
    simp [NewQuerier]
  · rintro rfl
    simp [NewQuerier, Ne.symm h1.1]
  · rintro rfl
    simp [NewQuerier, Ne.symm h1.2.1, Ne.symm h2.1]
  · rintro rfl
    simp [NewQuerier, Ne.symm h1.2.2.1, Ne.symm h2.2.1, Ne.symm h3.1]
  · rintro rfl
    simp [NewQuerier, Ne.symm h1.2.2.2.1, Ne.symm h2.2.2.1, Ne.symm h3.2.1, Ne.symm h4.1]
  · rintro rfl
    simp [NewQuerier, Ne.symm h1.2.2.2.2.1, Ne.symm h2.2.2.2.1, Ne.symm h3.2.2.1,
      Ne.symm h4.2.1, Ne.symm h5.1]
  · rintro rfl
    simp [NewQuerier, Ne.symm h1.2.2.2.2.2.1, Ne.symm h2.2.2.2.2.1, Ne.symm h3.2.2.2.1,
      Ne.symm h4.2.2.1, Ne.symm h5.2.1, Ne.symm h6.1]
  · rintro rfl
    simp [NewQuerier, Ne.symm h1.2.2.2.2.2.2.1, Ne.symm h2.2.2.2.2.2.1, Ne.symm h3.2.2.2.2.1,
      Ne.symm h4.2.2.2.1, Ne.symm h5.2.2.1, Ne.symm h6.2.1, Ne.symm h7.1]
  · rintro rfl
    simp [NewQuerier, Ne.symm h1.2.2.2.2.2.2.2.1, Ne.symm h2.2.2.2.2.2.2.1,
      Ne.symm h3.2.2.2.2.2.1, Ne.symm h4.2.2.2.2.1, Ne.symm h5.2.2.2.1, Ne.symm h6.2.2.1,
      Ne.symm h7.2.1, Ne.symm h8.1]
  · rintro rfl
    simp [NewQuerier, Ne.symm h1.2.2.2.2.2.2.2.2.1, Ne.symm h2.2.2.2.2.2.2.2.1,
      Ne.symm h3.2.2.2.2.2.2.1, Ne.symm h4.2.2.2.2.2.1, Ne.symm h5.2.2.2.2.1,
      Ne.symm h6.2.2.2.1, Ne.symm h7.2.2.1, Ne.symm h8.2.1, Ne.symm h9.1]
  · rintro rfl
    simp [NewQuerier, Ne.symm h1.2.2.2.2.2.2.2.2.2, Ne.symm h2.2.2.2.2.2.2.2.2,
      Ne.symm h3.2.2.2.2.2.2.2, Ne.symm h4.2.2.2.2.2.2, Ne.symm h5.2.2.2.2.2,
      Ne.symm h6.2.2.2.2, Ne.symm h7.2.2.2, Ne.symm h8.2.2, Ne.symm h9.2, Ne.symm h10.1]
  · intro hp
    simp only [TypesPkg.queryNames, List.mem_cons, List.mem_singleton, List.not_mem_nil,
      not_or, or_false] at hp
    obtain ⟨a1, a2, a3, a4, a5, a6, a7, a8, a9, a10, a11⟩ := hp
    simp [NewQuerier, a1, a2, a3, a4, a5, a6, a7, a8, a9, a10, a11]

/-- C7 on the example constants: the path `["request", "x"]` is served by
`queryRequest`, and the path `["nope", "x"]` gets the unknown-request error. -/
theorem NewQuerier_closed_dispatch_witness :
    demoPkg.queryNames.Nodup ∧
    NewQuerier (T := demoTypes) demoPkg demoKeeper demoCtx ["request", "x"] ⟨[53, 50]⟩ =
      queryRequest demoPkg demoCtx ⟨[53, 50]⟩ demoKeeper ∧
    NewQuerier (T := demoTypes) demoPkg demoKeeper demoCtx ["nope", "x"] ⟨[53, 50]⟩ =
      Except.ok (none, some (SdkError.sdkErrUnknownRequest "unknown service query endpoint")) :=
  ⟨by decide,
    (NewQuerier_closed_dispatch (T := demoTypes) demoPkg demoKeeper demoCtx ⟨[53, 50]⟩
      "request" ["x"] (by decide)).2.2.2.2.1 rfl,
    (NewQuerier_closed_dispatch (T := demoTypes) demoPkg demoKeeper demoCtx ⟨[53, 50]⟩
      "nope" ["x"] (by decide)).2.2.2.2.2.2.2.2.2.2.2.1 (by decide)⟩

/-- C9: `queryRequests` and `queryRequestsByReqCtx` neither skip nor fail on a
stale index entry. When the parameters decode (and, for `queryRequests`, the index
values decode to request ids), the list handed to the encoder has one element per
index entry whatever `GetRequest` reports as found; at the position of an entry
whose request id has no primary record the element is the value `GetRequest`
returned for the miss; and the handler returns the encoder's bytes with a nil
error. -/
theorem stale_index_entries_served (ctx : T.Context) (req : RequestQuery) (k : Keeper T) :
    (∀ (params : QueryRequestsParams) (ids : List Bytes),
      k.cdc.unmarshalRequestsParams req.Data = Except.ok params →
      (k.ActiveRequestsIterator ctx params.ServiceName params.Provider).map
        (fun e => k.cdc.mustUnmarshalRequestID e.2) = ids.map some →
      (ids.map (fun id => (k.GetRequest ctx id).1)).length =
        (k.ActiveRequestsIterator ctx params.ServiceName params.Provider).length ∧
      (∀ (i : Nat) (e : Bytes × Bytes) (id : Bytes),
        (k.ActiveRequestsIterator ctx params.ServiceName params.Provider)[i]? = some e →
        k.cdc.mustUnmarshalRequestID e.2 = some id →
        (k.GetRequest ctx id).2 = false →
        (ids.map (fun id => (k.GetRequest ctx id).1))[i]? = some (k.GetRequest ctx id).1) ∧
      queryRequests ctx req k =
        Except.ok (returnMarshalled
          (k.cdc.marshalRequests (ids.map (fun id => (k.GetRequest ctx id).1)))) ∧
      (∀ bz, k.cdc.marshalRequests (ids.map (fun id => (k.GetRequest ctx id).1)) =
          Except.ok bz →
        queryRequests ctx req k = Except.ok (some bz, none))) ∧
    (∀ (params : QueryRequestsByReqCtxParams),
      k.cdc.unmarshalRequestsByReqCtxParams req.Data = Except.ok params →
      (∀ e ∈ k.RequestsIteratorByReqCtx ctx params.RequestContextID params.BatchCounter,
        e.1 ≠ []) →
      ((k.RequestsIteratorByReqCtx ctx params.RequestContextID params.BatchCounter).map
        (fun e => (k.GetRequest ctx e.1.tail).1)).length =
        (k.RequestsIteratorByReqCtx ctx params.RequestContextID params.BatchCounter).length ∧
      (∀ (i : Nat) (e : Bytes × Bytes),
        (k.RequestsIteratorByReqCtx ctx params.RequestContextID params.BatchCounter)[i]? =
          some e →
        (k.GetRequest ctx e.1.tail).2 = false →
        ((k.RequestsIteratorByReqCtx ctx params.RequestContextID params.BatchCounter).map
          (fun e => (k.GetRequest ctx e.1.tail).1))[i]? =
          some (k.GetRequest ctx e.1.tail).1) ∧
      queryRequestsByReqCtx ctx req k =
        Except.ok (returnMarshalled (k.cdc.marshalRequests
          ((k.RequestsIteratorByReqCtx ctx params.RequestContextID params.BatchCounter).map
            (fun e => (k.GetRequest ctx e.1.tail).1)))) ∧
      (∀ bz, k.cdc.marshalRequests
          ((k.RequestsIteratorByReqCtx ctx params.RequestContextID params.BatchCounter).map
            (fun e => (k.GetRequest ctx e.1.tail).1)) = Except.ok bz →
        queryRequestsByReqCtx ctx req k = Except.ok (some bz, none))) := by
  constructor
  · intro params ids hparams hdec
    have heq := queryRequests_eq ctx req k params ids hparams hdec
    refine ⟨by simpa using map_some_length _ _ _ hdec, ?_, heq, ?_⟩
    · intro i e id he hid _
      obtain ⟨y, hy1, hy2⟩ := map_some_getElem _ _ _ hdec i e he
      rw [hid] at hy1
      cases hy1
      simp [List.getElem?_map, hy2]
    · intro bz hbz
      rw [heq]
      exact congrArg Except.ok (returnMarshalled_ok _ bz hbz)
  · intro params hparams hne
    have heq := queryRequestsByReqCtx_eq ctx req k params _ hparams (keys_tail hne)
    rw [List.map_map] at heq
    refine ⟨by simp, ?_, heq, ?_⟩
    · intro i e he _
      simp [List.getElem?_map, he]
    · intro bz hbz
      rw [heq]
      exact congrArg Except.ok (returnMarshalled_ok _ bz hbz)

/-- C9 on the example keeper, whose table holds request `[5, 1]` but not request
`[5, 2]`: both handlers serve both index entries, the stale one as the zero
record, and report no error. -/
theorem stale_index_entries_served_witness :
    (demoKeeper.GetRequest demoCtx [5, 2]).2 = false ∧
    queryRequests (T := demoTypes) demoCtx ⟨[1, 5]⟩ demoKeeper =
      Except.ok (some ([[42], []] : List Bytes).flatten, none) ∧
    queryRequestsByReqCtx (T := demoTypes) demoCtx ⟨[1, 5]⟩ demoKeeper =
      Except.ok (some ([[42], []] : List Bytes).flatten, none) :=
  ⟨rfl,
    ((stale_index_entries_served (T := demoTypes) demoCtx ⟨[1, 5]⟩ demoKeeper).1
      ⟨demoText [1, 5], [1, 5]⟩ [[5, 1], [5, 2]] rfl rfl).2.2.2 _ rfl,
    ((stale_index_entries_served (T := demoTypes) demoCtx ⟨[1, 5]⟩ demoKeeper).2
      ⟨[5], 1⟩ rfl (by decide)).2.2.2 _ rfl⟩

/-- C10: `queryRequest` checks its failure conditions in a fixed order. If the
parameters do not decode it returns the parse-params error; otherwise, if the
request id string does not convert, `ErrInvalidRequestID` with the original
string; otherwise, if no request is stored under the id, `ErrUnknownRequest`;
otherwise, if marshalling fails, the marshal-result error; otherwise the
marshalled request with a nil error. It always returns, and whenever it returns
an error the bytes are nil. -/
theorem queryRequest_checks_in_order (t : TypesPkg) (ctx : T.Context) (req : RequestQuery)
    (k : Keeper T) :
    (∀ err, k.cdc.unmarshalRequestParams req.Data = Except.error err →
      queryRequest t ctx req k = Except.ok (none, some (SdkError.sdkParseParamsErr err))) ∧
    (∀ params err, k.cdc.unmarshalRequestParams req.Data = Except.ok params →
      t.ConvertRequestID params.RequestID = Except.error err →
      queryRequest t ctx req k =
        Except.ok (none,
          some (SdkError.ErrInvalidRequestID t.DefaultCodespace params.RequestID))) ∧
    (∀ params requestID, k.cdc.unmarshalRequestParams req.Data = Except.ok params →
      t.ConvertRequestID params.RequestID = Except.ok requestID →
      (k.GetRequest ctx requestID).2 = false →
      queryRequest t ctx req k =
        Except.ok (none, some (SdkError.ErrUnknownRequest t.DefaultCodespace requestID))) ∧
    (∀ params requestID err, k.cdc.unmarshalRequestParams req.Data = Except.ok params →
      t.ConvertRequestID params.RequestID = Except.ok requestID →
      (k.GetRequest ctx requestID).2 = true →
      k.cdc.marshalRequest (k.GetRequest ctx requestID).1 = Except.error err →
      queryRequest t ctx req k =
        Except.ok (none, some (SdkError.sdkMarshalResultErr err))) ∧
    (∀ params requestID bz, k.cdc.unmarshalRequestParams req.Data = Except.ok params →
      t.ConvertRequestID params.RequestID = Except.ok requestID →
      (k.GetRequest ctx requestID).2 = true →
      k.cdc.marshalRequest (k.GetRequest ctx requestID).1 = Except.ok bz →
      queryRequest t ctx req k = Except.ok (some bz, none)) ∧
    (∃ r, queryRequest t ctx req k = Except.ok r ∧
      (r.2 ≠ none → r.1 = none) ∧ (r.2 = none → r.1 ≠ none)) := by
  refine ⟨?_, ?_, ?_, ?_, ?_, ?_⟩
  · intro err h
    simp [queryRequest, h]
  · intro params err h1 h2
    simp [queryRequest, h1, h2]
  · intro params requestID h1 h2 h3
    rcases hg : k.GetRequest ctx requestID with ⟨request, found⟩
    rw [hg] at h3
    simp only at h3
    subst h3
    simp [queryRequest, h1, h2, hg]
  · intro params requestID err h1 h2 h3 h4
    rcases hg : k.GetRequest ctx requestID with ⟨request, found⟩
    rw [hg] at h3 h4
    simp only at h3 h4
    subst h3
    simp [queryRequest, h1, h2, hg, h4, returnMarshalled]
  · intro params requestID bz h1 h2 h3 h4
    rcases hg : k.GetRequest ctx requestID with ⟨request, found⟩
    rw [hg] at h3 h4
    simp only at h3 h4
    subst h3
    simp [queryRequest, h1, h2, hg, h4, returnMarshalled]
  · cases h1 : k.cdc.unmarshalRequestParams req.Data with
    | error err =>
      exact ⟨(none, some (SdkError.sdkParseParamsErr err)), by simp [queryRequest, h1],
        by simp, by simp⟩
    | ok params =>
      cases h2 : t.ConvertRequestID params.RequestID with
      | error err =>
        exact ⟨(none, some (SdkError.ErrInvalidRequestID t.DefaultCodespace params.RequestID)),
          by simp [queryRequest, h1, h2], by simp, by simp⟩
      | ok requestID =>
        rcases hg : k.GetRequest ctx requestID with ⟨request, found⟩
        cases found with
        | false =>
          exact ⟨(none, some (SdkError.ErrUnknownRequest t.DefaultCodespace requestID)),
            by simp [queryRequest, h1, h2, hg], by simp, by simp⟩
        | true =>
          cases hm : k.cdc.marshalRequest request with
          | error err =>
            exact ⟨(none, some (SdkError.sdkMarshalResultErr err)),
              by simp [queryRequest, h1, h2, hg, hm, returnMarshalled], by simp, by simp⟩
          | ok bz =>
            exact ⟨(some bz, none),
              by simp [queryRequest, h1, h2, hg, hm, returnMarshalled], by simp, by simp⟩

/-- C10 on the example keeper, one input for each of the five outcomes. -/
theorem queryRequest_checks_in_order_witness :
    queryRequest (T := demoTypes) demoPkg demoCtx ⟨[]⟩ demoKeeper =
      Except.ok (none, some (SdkError.sdkParseParamsErr "unexpected end of JSON input")) ∧
    queryRequest (T := demoTypes) demoPkg demoCtx ⟨[53]⟩ demoKeeper =
      Except.ok (none, some (SdkError.ErrInvalidRequestID "service" "5")) ∧
    queryRequest (T := demoTypes) demoPkg demoCtx ⟨[53, 49]⟩ demoKeeper =
      Except.ok (none, some (SdkError.ErrUnknownRequest "service" [53, 49])) ∧
    queryRequest (T := demoTypes) demoPkg demoCtx ⟨[53, 51]⟩ demoKeeper =
      Except.ok (none, some (SdkError.sdkMarshalResultErr "unsupported value")) ∧
    queryRequest (T := demoTypes) demoPkg demoCtx ⟨[53, 50]⟩ demoKeeper =
      Except.ok (some [43], none) :=
  ⟨(queryRequest_checks_in_order (T := demoTypes) demoPkg demoCtx ⟨[]⟩ demoKeeper).1 _ rfl,
    (queryRequest_checks_in_order (T := demoTypes) demoPkg demoCtx ⟨[53]⟩ demoKeeper).2.1
      ⟨"5"⟩ "odd length hex string" rfl rfl,
    (queryRequest_checks_in_order (T := demoTypes) demoPkg demoCtx ⟨[53, 49]⟩
      demoKeeper).2.2.1 ⟨"51"⟩ [53, 49] rfl rfl rfl,
    (queryRequest_checks_in_order (T := demoTypes) demoPkg demoCtx ⟨[53, 51]⟩
      demoKeeper).2.2.2.1 ⟨"53"⟩ [53, 51] "unsupported value" rfl rfl rfl rfl,
    (queryRequest_checks_in_order (T := demoTypes) demoPkg demoCtx ⟨[53, 50]⟩
      demoKeeper).2.2.2.2.1 ⟨"52"⟩ [53, 50] [43] rfl rfl rfl rfl⟩

end Service

/-! ## The keybase singleton -/

namespace Keys

variable {DB KB Opts Err : Type}

theorem run_of_some (c : Call DB KB Opts Err) (kb : KB) (opens : List String) :
    c.run ⟨some kb, opens⟩ = ((some kb, none), ⟨some kb, opens⟩) := by
  cases c <;> rfl

theorem runCalls_of_some (cs : List (Call DB KB Opts Err)) (kb : KB) (opens : List String) :
    runCalls cs ⟨some kb, opens⟩ =
      (List.replicate cs.length (some kb, none), ⟨some kb, opens⟩) := by
  induction cs with
  | nil => rfl
  | cons c cs ih => simp [runCalls, run_of_some, ih, List.replicate_succ]

/-- C8: the keybase is a lazily initialised singleton. With the package variable
as an optional state: when the state holds a keybase, `GetKeyBaseFromDir` and
`getKeyBaseFromDirWithOpts` return that keybase with no error for any root
directory, options and environment, open no database and leave the state
unchanged, and so does every sequence of later calls; when the state is empty, a
call attempts one open, and if the open fails it returns that error with a nil
keybase and leaves the state empty, and if it succeeds it returns the keybase
built on the database and stores it. -/
theorem keybase_lazy_singleton (env : Env DB KB Opts Err) (rootDir : String)
    (o : Option Opts) (opens : List String) :
    (∀ kb, GetKeyBaseFromDir env rootDir ⟨some kb, opens⟩ =
        ((some kb, none), ⟨some kb, opens⟩)) ∧
    (∀ kb, getKeyBaseFromDirWithOpts env rootDir o ⟨some kb, opens⟩ =
        ((some kb, none), ⟨some kb, opens⟩)) ∧
    (∀ kb (later : List (Call DB KB Opts Err)),
      runCalls later ⟨some kb, opens⟩ =
        (List.replicate later.length (some kb, none), ⟨some kb, opens⟩)) ∧
    (∀ err, env.NewGoLevelDB KeyDBName (env.Join rootDir "keys") = Except.error err →
      GetKeyBaseFromDir env rootDir ⟨none, opens⟩ =
        ((none, some err), ⟨none, opens ++ [env.Join rootDir "keys"]⟩)) ∧
    (∀ err, env.NewGoLevelDBWithOpts KeyDBName (env.Join rootDir "keys") o =
        Except.error err →
      getKeyBaseFromDirWithOpts env rootDir o ⟨none, opens⟩ =
        ((none, some err), ⟨none, opens ++ [env.Join rootDir "keys"]⟩)) ∧
    (∀ db, env.NewGoLevelDB KeyDBName (env.Join rootDir "keys") = Except.ok db →
      GetKeyBaseFromDir env rootDir ⟨none, opens⟩ =
        ((some (env.GetKeyBaseFromDB db), none),
          ⟨some (env.GetKeyBaseFromDB db), opens ++ [env.Join rootDir "keys"]⟩)) ∧
    (∀ db, env.NewGoLevelDBWithOpts KeyDBName (env.Join rootDir "keys") o = Except.ok db →
      getKeyBaseFromDirWithOpts env rootDir o ⟨none, opens⟩ =
        ((some (env.clientGetKeyBase db), none),
          ⟨some (env.clientGetKeyBase db), opens ++ [env.Join rootDir "keys"]⟩)) := by
  refine ⟨fun _ => rfl, fun _ => rfl, fun kb later => runCalls_of_some later kb opens,
    ?_, ?_, ?_, ?_⟩
  · intro err h
    simp [GetKeyBaseFromDir, h]
  · intro err h
    simp [getKeyBaseFromDirWithOpts, h]
  · intro db h
    simp [GetKeyBaseFromDir, h]
  · intro db h
    simp [getKeyBaseFromDirWithOpts, h]

/-- C8 on an example: a first call on `/home/a` opens `/home/a/keys` and stores
its keybase; later calls for `/home/b` and `/tmp` (whose open would fail) return
the stored keybase and open nothing; a first call on `/tmp` fails and leaves the
state empty. -/
theorem keybase_lazy_singleton_witness :
    GetKeyBaseFromDir demoEnv "/home/a" ⟨none, []⟩ =
      ((some "keybase:/home/a/keys", none), ⟨some "keybase:/home/a/keys", ["/home/a/keys"]⟩) ∧
    runCalls [Call.fromDir demoEnv "/home/b", Call.withOpts demoEnv "/tmp" (some 1)]
        ⟨some "keybase:/home/a/keys", ["/home/a/keys"]⟩ =
      (List.replicate 2 (some "keybase:/home/a/keys", none),
        ⟨some "keybase:/home/a/keys", ["/home/a/keys"]⟩) ∧
    GetKeyBaseFromDir demoEnv "/tmp" ⟨none, []⟩ =
      ((none, some "resource unavailable"), ⟨none, ["/tmp/keys"]⟩) :=
  ⟨(keybase_lazy_singleton demoEnv "/home/a" none []).2.2.2.2.2.1 "/home/a/keys" rfl,
    (keybase_lazy_singleton demoEnv "/home/b" none ["/home/a/keys"]).2.2.1
      "keybase:/home/a/keys"
      [Call.fromDir demoEnv "/home/b", Call.withOpts demoEnv "/tmp" (some 1)],
    (keybase_lazy_singleton demoEnv "/tmp" none []).2.2.2.1 "resource unavailable" rfl⟩

end Keys
